import Mathlib

/-!
# Laptop booking backend (`src/server.js`)

A shallow embedding of the request handlers of `server.js`: the in-memory
collections `users`, `laptops`, `bookings` and the `otpStore` object become one
explicit `State`, every handler becomes a function from a state and a request to
a new state and a response.

Conventions of the embedding.
* Wall-clock readings (`Date.now()`, `new Date()`) are arguments `now`, in
  milliseconds. `created_at` holds that reading; the ISO string the code stores
  and parses back with `new Date(...)` denotes the same millisecond.
* The draw of `crypto.randomInt` and the salt of `bcrypt.hash` are arguments.
* Built-ins of the JavaScript runtime whose full definition is outside the
  repository (`Number` on strings, `parseInt`, the `Date` parser, `bcrypt.hash`,
  and the rounding of the number arithmetic) are the fields of a `Runtime`;
  theorems hold for every runtime.
* Ids and timestamps are integers. A price or a day count is the rational
  value of a double; every arithmetic operation of the price computation
  returns the rounding of its exact result. `none` stands for a number that is
  not finite (`NaN`, an infinity), which JSON writes as `null`; the two zeros
  are not told apart.
* The `otpStore` object is modelled with its prototype chain.
* The authentication middleware is represented by its result, the caller's
  `user_id` and `role` from the verified token.
-/

namespace LaptopBooking

/-! ## Values and runtime -/

/-- A request-body field as the handlers receive it: absent, a number (an
integer) or a string. -/
inductive Val where
  | undefined
  | num (n : Int)
  | str (s : String)
  deriving DecidableEq, Repr

/-- JavaScript truthiness, as tested by `if (start_date)`, `if (status)`. -/
def truthy : Val → Bool
  | .undefined => false
  | .num n => n != 0
  | .str s => s != ""

/-- Built-ins of the runtime. `none` stands for `NaN` (or an invalid date). -/
structure Runtime where
  /-- The value of `Number(s)` for a string `s`, when it is an integer. -/
  stringToNumber : String → Option Int
  /-- The value of `parseInt(v)`. -/
  parseInt : Val → Option Int
  /-- The value of `new Date(v)` read as a number: milliseconds since the epoch. -/
  newDate : Val → Option Int
  /-- The value of `bcrypt.hash(password, 10)` with the salt that was drawn. -/
  bcryptHash : String → Nat → String
  /-- The number an arithmetic operation returns when its exact result is `q`:
  the double nearest to `q` (IEEE 754 binary64, ties to even), `none` when that
  is not finite. -/
  round : Rat → Option Rat

/-- The value of `Number(v)`: a number is itself, `undefined` is `NaN`, a string is
converted by the runtime. -/
def Runtime.Number (rt : Runtime) : Val → Option Int
  | .undefined => none
  | .num n => some n
  | .str s => rt.stringToNumber s

/-- The value of `crypto.randomInt(min, max)`: an integer `n` with `min <= n < max`, chosen
by the draw `seed`. -/
def randomInt (seed : Nat) (min max : Int) : Int :=
  min + (seed : Int) % (max - min)

/-! ## Data model -/

structure User where
  id : Int
  name : String
  email : String
  password : String
  role : String
  created_at : Int
  deriving DecidableEq, Repr

/-- A laptop record. The price is the rational value of the double the record
holds: a price written 0.1 in the data is 3602879701896397 / 2 ^ 55. -/
structure Laptop where
  id : Int
  brand : Val
  model : Val
  cpu : Val
  ram : Val
  storage : Val
  available : Bool
  daily_price : Rat
  image_url : Val
  deriving DecidableEq, Repr

structure Booking where
  id : Int
  laptop_id : Val
  user_id : Int
  start_date : Val
  end_date : Val
  status : Val
  total_price : Option Rat
  created_at : Int
  deriving DecidableEq, Repr

/-- An entry of `otpStore`. -/
structure OtpRecord where
  otp : Int
  expiration : Int
  deriving DecidableEq, Repr

/-- The object `otpStore`, a plain `{}` keyed by email: its own properties, and
the record that the assignment `otpStore["__proto__"] = record` installed as
its prototype, if any. Without one the prototype is `Object.prototype`; with
one, the record stands between the object and `Object.prototype`. The own
property under the key `__proto__` is never read or written. -/
structure OtpStore where
  own : String → Option OtpRecord
  proto : Option OtpRecord

/-- The object `{}` the store starts as. -/
def OtpStore.empty : OtpStore := ⟨fun _ => none, none⟩

/-- The names of the members of `Object.prototype` other than `__proto__`. -/
def objectPrototypeKeys : List String :=
  ["constructor", "__defineGetter__", "__defineSetter__", "hasOwnProperty",
    "__lookupGetter__", "__lookupSetter__", "isPrototypeOf", "propertyIsEnumerable",
    "toString", "valueOf", "toLocaleString"]

/-- What the expression `otpStore[key]` evaluates to: a stored record, another
value found on the prototype chain (a member of `Object.prototype`, or the
number in a field of the record installed as prototype) with its truthiness, or
`undefined`. A value of the second kind has no `otp` and no `expiration`. -/
inductive OtpEntry where
  | record (r : OtpRecord)
  | inherited (truthy : Bool)
  | undefined
  deriving DecidableEq, Repr

/-- The process-wide collections. -/
structure State where
  users : List User
  laptops : List Laptop
  bookings : List Booking
  otpStore : OtpStore

/-- What a handler sends back: the status code, the `message`, and the
`booking`, `laptop` or `otp` the JSON answer carries, if any. -/
structure Response where
  status : Nat
  message : String
  booking : Option Booking
  laptop : Option Laptop
  otp : Option Int
  deriving DecidableEq, Repr

/-- An answer that carries only a message. -/
def Response.msg (status : Nat) (message : String) : Response :=
  ⟨status, message, none, none, none⟩

/-- The constant `OTP_EXPIRATION_TIME = 5 * 60 * 1000`, five minutes in milliseconds. -/
def OTP_EXPIRATION_TIME : Int := 5 * 60 * 1000

/-- The element `find` returns is mutated in place: the first element that
satisfies `p` is replaced by its image under `f`. -/
def modifyFirst {α : Type} (p : α → Bool) (f : α → α) : List α → List α
  | [] => []
  | x :: xs => if p x then f x :: xs else x :: modifyFirst p f xs

/-- The value of `otpStore[key]`. The key `__proto__` reads the prototype; any
other key reads the own property and, when there is none, the prototype
chain. -/
def otpGet (store : OtpStore) (key : String) : OtpEntry :=
  if key = "__proto__" then
    match store.proto with
    | some r => .record r
    | none => .inherited true
  else
    match store.own key with
    | some r => .record r
    | none =>
      match store.proto with
      | some r =>
        if key = "otp" then .inherited (r.otp != 0)
        else if key = "expiration" then .inherited (r.expiration != 0)
        else if key ∈ objectPrototypeKeys then .inherited true
        else .undefined
      | none => if key ∈ objectPrototypeKeys then .inherited true else .undefined

/-- The assignment `otpStore[email] = record`: the key `__proto__` sets the
prototype, any other key sets an own property. -/
def otpSet (store : OtpStore) (email : String) (r : OtpRecord) : OtpStore :=
  if email = "__proto__" then { store with proto := some r }
  else { store with own := fun k => if k = email then some r else store.own k }

/-- The statement `delete otpStore[email]`: it removes an own property and
nothing else, so for the key `__proto__` it removes nothing. -/
def otpDelete (store : OtpStore) (email : String) : OtpStore :=
  if email = "__proto__" then store
  else { store with own := fun k => if k = email then none else store.own k }

/-! ## Password recovery -/

/-- The handler of `POST /api/auth/forgot-password` (after the rate limiter let it through). -/
def forgotPassword (s : State) (email : String) (now : Int) (seed : Nat) :
    State × Response :=
  match s.users.find? (fun u => u.email == email) with
  | none => (s, Response.msg 404 "User not found")
  | some _ =>
    let otp := randomInt seed 100000 999999
    let otpExpirationTime := now + OTP_EXPIRATION_TIME
    ({ s with otpStore := otpSet s.otpStore email ⟨otp, otpExpirationTime⟩ },
      ⟨200, "OTP sent to " ++ email, none, none, some otp⟩)

/-- The body of a reset-password request. -/
structure ResetBody where
  email : String
  otp : Val
  newPassword : String

/-- The handler of `POST /api/auth/reset-password`. -/
def resetPassword (rt : Runtime) (s : State) (body : ResetBody) (now : Int) (salt : Nat) :
    State × Response :=
  match otpGet s.otpStore body.email with
  | .undefined => (s, Response.msg 400 "OTP not found")
  | .inherited false => (s, Response.msg 400 "OTP not found")
  | .inherited true =>
    -- `otpRecord.expiration` and `otpRecord.otp` are `undefined`: the expiry test
    -- is false and `undefined !== parseInt(otp)` is true
    (s, Response.msg 400 "Invalid OTP")
  | .record otpRecord =>
    if now > otpRecord.expiration then
      ({ s with otpStore := otpDelete s.otpStore body.email },
        Response.msg 400 "OTP has expired")
    else if some otpRecord.otp ≠ rt.parseInt body.otp then
      (s, Response.msg 400 "Invalid OTP")
    else
      match s.users.find? (fun u => u.email == body.email) with
      | none => (s, Response.msg 404 "User not found")
      | some _ =>
        let hashedPassword := rt.bcryptHash body.newPassword salt
        ({ s with
            users := modifyFirst (fun u => u.email == body.email)
              (fun u => { u with password := hashedPassword }) s.users
            otpStore := otpDelete s.otpStore body.email },
          Response.msg 200 "Password reset successfully")

/-! ## Users -/

/-- The handler of `DELETE /api/admin/users/:id`, behind `adminMiddleware`. -/
def deleteUser (rt : Runtime) (s : State) (role : String) (id : String) :
    State × Response :=
  if role ≠ "admin" then (s, Response.msg 403 "Forbidden") else
  let userId := rt.parseInt (.str id)
  match s.users.findIdx? (fun u => some u.id == userId) with
  | none => (s, Response.msg 404 "User not found")
  | some index =>
    ({ s with users := s.users.eraseIdx index },
      Response.msg 200 "User deleted successfully")

/-- The body of a register request. -/
structure RegisterBody where
  name : String
  email : String
  password : String
  /-- A `role` the body may carry; the handler does not read it. -/
  role : Val

/-- The handler of `POST /api/auth/register`. -/
def register (rt : Runtime) (s : State) (body : RegisterBody) (now : Int) (salt : Nat) :
    State × Response :=
  match s.users.find? (fun u => u.email == body.email) with
  | some _ => (s, Response.msg 400 "Email already registered")
  | none =>
    let hashedPassword := rt.bcryptHash body.password salt
    let newUser : User :=
      { id := (s.users.length : Int) + 1
        name := body.name
        email := body.email
        password := hashedPassword
        role := "customer"
        created_at := now }
    ({ s with users := s.users ++ [newUser] },
      Response.msg 201 "User registered successfully")

/-- The handler of `POST /api/auth/promote`. -/
def promote (s : State) (user_id : Int) : State × Response :=
  match s.users.find? (fun u => u.id == user_id) with
  | none => (s, Response.msg 404 "Not Found")
  | some _ =>
    ({ s with users := (modifyFirst (fun u => u.id == user_id)
        (fun u => { u with role := "admin" }) s.users) },
      Response.msg 200 "User promoted to admin successfully")

/-- The body of an admin update-user request; a field may be absent. -/
structure UserUpdateBody where
  name : Option String
  email : Option String
  password : Option String
  role : Option String

/-- The string of a field that passes `if (field)`: present and not empty. -/
def provided : Option String → Option String
  | some v => if v != "" then some v else none
  | none => none

/-- The assignments of the admin update on the user it found. -/
def applyUserUpdate (rt : Runtime) (body : UserUpdateBody) (salt : Nat) (u : User) : User :=
  let u1 := match provided body.name with
    | some name => { u with name := name }
    | none => u
  let u2 := match provided body.email with
    | some email => { u1 with email := email }
    | none => u1
  let u3 := match provided body.password with
    | some password => { u2 with password := rt.bcryptHash password salt }
    | none => u2
  match provided body.role with
  | some role => { u3 with role := role }
  | none => u3

/-- The handler of `PUT /api/admin/users/:id`, behind `adminMiddleware`. -/
def updateUser (rt : Runtime) (s : State) (role : String) (id : String)
    (body : UserUpdateBody) (salt : Nat) : State × Response :=
  if role ≠ "admin" then (s, Response.msg 403 "Forbidden") else
  let userId := rt.parseInt (.str id)
  match s.users.find? (fun u => some u.id == userId) with
  | none => (s, Response.msg 404 "User not found")
  | some _ =>
    ({ s with users := (modifyFirst (fun u => some u.id == userId)
        (applyUserUpdate rt body salt) s.users) },
      Response.msg 200 "User updated successfully")

/-! ## Laptops -/

/-- The body of an add-laptop request. -/
structure LaptopBody where
  brand : Val
  model : Val
  cpu : Val
  ram : Val
  storage : Val
  daily_price : Rat
  image_url : Val

/-- The handler of `POST /api/laptops`, behind `adminMiddleware`. -/
def addLaptop (s : State) (role : String) (body : LaptopBody) : State × Response :=
  if role ≠ "admin" then (s, Response.msg 403 "Forbidden") else
  let newLaptop : Laptop :=
    { id := (s.laptops.length : Int) + 1
      brand := body.brand
      model := body.model
      cpu := body.cpu
      ram := body.ram
      storage := body.storage
      available := true
      daily_price := body.daily_price
      image_url := body.image_url }
  ({ s with laptops := s.laptops ++ [newLaptop] },
    ⟨201, "Laptop added successfully", none, some newLaptop, none⟩)

/-- The handler of `DELETE /api/laptops/:id`, behind `adminMiddleware`. -/
def deleteLaptop (rt : Runtime) (s : State) (role : String) (id : String) :
    State × Response :=
  if role ≠ "admin" then (s, Response.msg 403 "Forbidden") else
  let laptopId := rt.parseInt (.str id)
  match s.laptops.findIdx? (fun l => some l.id == laptopId) with
  | none => (s, Response.msg 404 "Laptop not found")
  | some index =>
    ({ s with laptops := s.laptops.eraseIdx index },
      Response.msg 200 "Laptop deleted successfully")

/-! ## Bookings -/

/-- The body of a create-booking request. -/
structure BookingBody where
  laptop_id : Val
  start_date : Val
  end_date : Val

/-- The day count of both handlers:
`(new Date(end_date) - new Date(start_date)) / (1000 * 60 * 60 * 24) + 1`,
the difference, the quotient and the sum each rounded. -/
def days (rt : Runtime) (start_date end_date : Val) : Option Rat :=
  match rt.newDate end_date, rt.newDate start_date with
  | some e, some b =>
    (rt.round ((e : Rat) - (b : Rat))).bind fun difference =>
    (rt.round (difference / (1000 * 60 * 60 * 24))).bind fun quotient =>
    rt.round (quotient + 1)
  | _, _ => none

/-- The product `laptop.daily_price * days`, rounded. -/
def totalPrice (rt : Runtime) (daily_price : Rat) (d : Option Rat) : Option Rat :=
  d.bind fun x => rt.round (daily_price * x)

/-- The handler of `POST /api/bookings`. -/
def createBooking (rt : Runtime) (s : State) (user_id : Int) (body : BookingBody)
    (now : Int) : State × Response :=
  match s.laptops.find? (fun l => some l.id == rt.Number body.laptop_id) with
  | none => (s, Response.msg 400 "Laptop not available")
  | some laptop =>
    if !laptop.available then (s, Response.msg 400 "Laptop not available") else
    let total_price := totalPrice rt laptop.daily_price (days rt body.start_date body.end_date)
    let booking : Booking :=
      { id := (s.bookings.length : Int) + 1
        laptop_id := body.laptop_id
        user_id := user_id
        start_date := body.start_date
        end_date := body.end_date
        status := .str "confirmed"
        total_price := total_price
        created_at := now }
    ({ s with
        bookings := s.bookings ++ [booking]
        laptops := modifyFirst (fun l => some l.id == rt.Number body.laptop_id)
          (fun l => { l with available := false }) s.laptops },
      ⟨201, "Booking confirmed", some booking, none, none⟩)

/-- The list `GET /api/bookings` answers with. -/
def myBookings (s : State) (user_id : Int) : List Booking :=
  s.bookings.filter (fun b => b.user_id == user_id)

/-- The handler of `GET /api/bookings` with the state it leaves: it reads the
collection and assigns nothing. -/
def getBookings (s : State) (user_id : Int) : State × List Booking :=
  (s, myBookings s user_id)

/-- The 24-hour test of cancel: `(now - bookingTime) / (1000 * 60 * 60) > 24`.
The test is on the exact quotient; on the rounded quotient it has the same
outcome, 24 being a double and the next quotient above it, 24 + 1/3600000,
being farther from 24 than the spacing of the doubles. -/
def tooLate (now created_at : Int) : Bool :=
  decide (((now - created_at : Int) : Rat) / (1000 * 60 * 60) > 24)

/-- The handler of `DELETE /api/bookings/:id/cancel`. -/
def cancelBooking (rt : Runtime) (s : State) (user_id : Int) (id : String) (now : Int) :
    State × Response :=
  let bookingId := rt.parseInt (.str id)
  match s.bookings.find? (fun b => some b.id == bookingId && b.user_id == user_id) with
  | none => (s, Response.msg 404 "Booking not found or you don't have permission")
  | some booking =>
    if tooLate now booking.created_at then
      (s, Response.msg 400 "Booking cannot be cancelled after 24 hours")
    else
      ({ s with
          bookings := modifyFirst (fun b => some b.id == bookingId && b.user_id == user_id)
            (fun b => { b with status := .str "cancelled" }) s.bookings
          laptops := modifyFirst (fun l => Val.num l.id == booking.laptop_id)
            (fun l => { l with available := true }) s.laptops },
        ⟨200, "Booking cancelled successfully",
          some { booking with status := .str "cancelled" }, none, none⟩)

/-- The body of an update-booking request. -/
structure UpdateBody where
  start_date : Val
  end_date : Val
  status : Val

/-- The assignments of update on the booking it found; `laptops` is the
collection the price is recomputed against. -/
def applyUpdate (rt : Runtime) (laptops : List Laptop) (body : UpdateBody) (b : Booking) :
    Booking :=
  let b1 := if truthy body.start_date then { b with start_date := body.start_date } else b
  let b2 := if truthy body.end_date then { b1 with end_date := body.end_date } else b1
  let b3 := if truthy body.status then { b2 with status := body.status } else b2
  match laptops.find? (fun l => Val.num l.id == b3.laptop_id) with
  | some laptop =>
    { b3 with total_price := totalPrice rt laptop.daily_price (days rt b3.start_date b3.end_date) }
  | none => b3

/-- The handler of `PUT /api/bookings/:id/update`. -/
def updateBooking (rt : Runtime) (s : State) (user_id : Int) (id : String)
    (body : UpdateBody) : State × Response :=
  let bookingId := rt.parseInt (.str id)
  match s.bookings.find? (fun b => some b.id == bookingId && b.user_id == user_id) with
  | none => (s, Response.msg 404 "Booking not found or you don't have permission")
  | some booking =>
    ({ s with
        bookings := modifyFirst (fun b => some b.id == bookingId && b.user_id == user_id)
          (applyUpdate rt s.laptops body) s.bookings },
      ⟨200, "Booking updated successfully", some (applyUpdate rt s.laptops body booking),
        none, none⟩)

/-! ## A runtime for evaluating the handlers on examples -/

/-- The value of a run of decimal digits. -/
def digitsValue : List Char → Nat → Option Nat
  | [], acc => some acc
  | c :: cs, acc =>
    if 48 ≤ c.toNat ∧ c.toNat ≤ 57 then digitsValue cs (acc * 10 + (c.toNat - 48)) else none

/-- A decimal numeral with an optional minus sign. -/
def decimal : List Char → Option Int
  | [] => none
  | '-' :: c :: cs => (digitsValue (c :: cs) 0).map (fun n => - (n : Int))
  | c :: cs => (digitsValue (c :: cs) 0).map (fun n => (n : Int))

/-- Days from 1970-01-01 to the civil date `y-m-d` (proleptic Gregorian). -/
def daysFromCivil (y m d : Nat) : Int :=
  let y1 : Int := if m ≤ 2 then (y : Int) - 1 else y
  let era : Int := y1 / 400
  let yoe : Int := y1 - era * 400
  let mp : Int := if m ≤ 2 then (m : Int) + 9 else (m : Int) - 3
  let doy : Int := (153 * mp + 2) / 5 + (d : Int) - 1
  let doe : Int := yoe * 365 + yoe / 4 - yoe / 100 + doy
  era * 146097 + doe - 719468

/-- The ISO forms `YYYY-MM-DD` and `YYYY-MM-DDTHH:mm:ss.sssZ`, both UTC. -/
def isoDate : List Char → Option Int
  | [y1, y2, y3, y4, '-', m1, m2, '-', d1, d2] => do
    let y ← digitsValue [y1, y2, y3, y4] 0
    let m ← digitsValue [m1, m2] 0
    let d ← digitsValue [d1, d2] 0
    pure (daysFromCivil y m d * 86400000)
  | [y1, y2, y3, y4, '-', m1, m2, '-', d1, d2, 'T', h1, h2, ':', n1, n2, ':', s1, s2, '.',
      f1, f2, f3, 'Z'] => do
    let y ← digitsValue [y1, y2, y3, y4] 0
    let m ← digitsValue [m1, m2] 0
    let d ← digitsValue [d1, d2] 0
    let h ← digitsValue [h1, h2] 0
    let n ← digitsValue [n1, n2] 0
    let sec ← digitsValue [s1, s2] 0
    let f ← digitsValue [f1, f2, f3] 0
    pure (daysFromCivil y m d * 86400000 + ((h * 3600 + n * 60 + sec) * 1000 + f : Nat))
  | _ => none

/-- The integer nearest to `y`, the even one when two are equally near. -/
def roundHalfEven (y : Rat) : Int :=
  let f := Int.floor y
  if y - f < 1 / 2 then f
  else if 1 / 2 < y - f then f + 1
  else if f % 2 = 0 then f else f + 1

/-- The exponent of the spacing of the doubles around `a`: 52 below the binary
exponent of `a`, and -1074 for the subnormal numbers. -/
def spacingExponent (a : Rat) : Int := max (Int.log 2 a - 52) (-1074)

/-- The rounding of `a >= 0` to the nearest multiple of the spacing. -/
def roundMagnitude (a : Rat) : Rat :=
  (roundHalfEven (a / 2 ^ spacingExponent a) : Rat) * 2 ^ spacingExponent a

/-- The rounding of IEEE 754 binary64, to nearest and ties to even: the double
nearest to `q`, `none` when the rounding reaches 2 ^ 1024 (an infinity). -/
def roundBinary64 (q : Rat) : Option Rat :=
  if (2 : Rat) ^ (1024 : Nat) ≤ roundMagnitude |q| then none
  else some (if q < 0 then -roundMagnitude |q| else roundMagnitude |q|)

/-- A runtime that agrees with JavaScript on plain decimal numerals and on the
two ISO date forms above, and rounds as binary64 does; it serves to evaluate
the handlers on examples. -/
def sampleRuntime : Runtime where
  stringToNumber := fun s => decimal s.data
  parseInt := fun v =>
    match v with
    | .undefined => none
    | .num n => some n
    | .str s => decimal s.data
  newDate := fun v =>
    match v with
    | .undefined => none
    | .num n => some n
    | .str s => isoDate s.data
  bcryptHash := fun password _ => "$2a$10$" ++ password
  round := roundBinary64

/-! ## Specification-side notions -/

/-- Follows the spec's words: the inclusive day count is the floor of the
difference in days, plus one. Both instants are in milliseconds. -/
def inclusive_day_count (start_ms end_ms : Int) : Int :=
  (end_ms - start_ms) / (1000 * 60 * 60 * 24) + 1

/-- The rational `q` is a number of the runtime: rounding returns it as it
is. -/
def Runtime.exact (rt : Runtime) (q : Rat) : Prop := rt.round q = some q

/-- Rounding keeps the order, as rounding to nearest does. -/
def Runtime.roundsMonotone (rt : Runtime) : Prop :=
  ∀ x y a b : Rat, x ≤ y → rt.round x = some a → rt.round y = some b → a ≤ b

/-- Integers up to 2 ^ 53 in size are numbers of the runtime, as they are
doubles. -/
def Runtime.roundsIntegers (rt : Runtime) : Prop :=
  ∀ n : Int, |n| ≤ 2 ^ 53 → rt.round (n : Rat) = some (n : Rat)

/-- The number of bookings with status `confirmed` whose `laptop_id` is the
laptop id `id` (under `===`, the lookup of cancel and update). -/
def confirmedOn (bookings : List Booking) (id : Int) : Nat :=
  bookings.countP (fun b => b.status == Val.str "confirmed" && Val.num id == b.laptop_id)

/-- The availability invariant in the spec's words: a laptop is unavailable
exactly when one confirmed booking references it. -/
def AvailabilityInvariant (s : State) : Prop :=
  ∀ l ∈ s.laptops, (l.available = false ↔ confirmedOn s.bookings l.id = 1)

/-- The inductive form of the availability invariant: laptop ids are pairwise
distinct, an unavailable laptop has one confirmed booking and an available
laptop has none. -/
def Consistent (s : State) : Prop :=
  (s.laptops.map (fun l => l.id)).Nodup ∧
  ∀ l ∈ s.laptops, confirmedOn s.bookings l.id = if l.available then 0 else 1

/-- The requests that change laptops or bookings. -/
inductive Request where
  | create (user_id : Int) (body : BookingBody) (now : Int)
  | cancel (user_id : Int) (id : String) (now : Int)
  | update (user_id : Int) (id : String) (body : UpdateBody)
  | addLaptop (role : String) (body : LaptopBody)
  | deleteLaptop (role : String) (id : String)

/-- The state after the handler of a request has run. -/
def handle (rt : Runtime) (s : State) : Request → State
  | .create user_id body now => (createBooking rt s user_id body now).1
  | .cancel user_id id now => (cancelBooking rt s user_id id now).1
  | .update user_id id body => (updateBooking rt s user_id id body).1
  | .addLaptop role body => (addLaptop s role body).1
  | .deleteLaptop role id => (deleteLaptop rt s role id).1

/-- The state after a sequence of requests, served one after the other. -/
def run (rt : Runtime) (s : State) : List Request → State
  | [] => s
  | r :: rs => run rt (handle rt s r) rs

/-- The requests under which the availability invariant is kept: a create
whose `laptop_id` is a number, a cancel that finds no booking or a confirmed
one, an update without `status`, an add-laptop whose new id is neither taken nor
referenced by a confirmed booking, and any delete-laptop. -/
def Regular (rt : Runtime) (s : State) : Request → Prop
  | .create _ body _ => ∃ n : Int, body.laptop_id = Val.num n
  | .cancel user_id id _ =>
    ∀ b, s.bookings.find? (fun b => some b.id == rt.parseInt (.str id) && b.user_id == user_id)
      = some b → b.status = Val.str "confirmed"
  | .update _ _ body => truthy body.status = false
  | .addLaptop _ _ =>
    (∀ l ∈ s.laptops, l.id ≠ (s.laptops.length : Int) + 1) ∧
    confirmedOn s.bookings ((s.laptops.length : Int) + 1) = 0
  | .deleteLaptop _ _ => True

/-- Every request of the sequence is regular in the state it is served in. -/
def RegularRun (rt : Runtime) (s : State) : List Request → Prop
  | [] => True
  | r :: rs => Regular rt s r ∧ RegularRun rt (handle rt s r) rs

/-! ## Example states -/

/-- One user, one available laptop at 20 a day, no bookings, no OTP. -/
def shop : State :=
  { users := [⟨1, "Ann", "ann@example.com", "$2a$10$old", "customer", 0⟩]
    laptops := [⟨1, .str "Dell", .str "XPS", .str "i7", .num 16, .num 512, true, 20,
      .undefined⟩]
    bookings := []
    otpStore := OtpStore.empty }

/-- Laptop 1 is held by the confirmed booking 1 of user 7. -/
def shopBooked : State :=
  { users := []
    laptops := [⟨1, .str "Dell", .str "XPS", .str "i7", .num 16, .num 512, false, 20,
      .undefined⟩]
    bookings := [⟨1, .num 1, 7, .str "2024-01-01", .str "2024-01-03", .str "confirmed",
      some 60, 0⟩]
    otpStore := OtpStore.empty }

/-- The request of user 7 for laptop 1 with the id sent as the string "1". -/
def stringIdBody : BookingBody :=
  ⟨.str "1", .str "2024-01-01", .str "2024-01-03"⟩

/-- The request for laptop 1 with the id sent as a number. -/
def numberIdBody : BookingBody :=
  ⟨.num 1, .str "2024-01-01", .str "2024-01-03"⟩

/-- The request for laptop 1 from midnight to noon of the same day. -/
def halfDayBody : BookingBody :=
  ⟨.num 1, .str "2024-01-01T00:00:00.000Z", .str "2024-01-01T12:00:00.000Z"⟩

/-- The request for laptop 1 from midnight to eight in the morning of the
same day: a third of a day, which no double holds exactly. -/
def eightHourBody : BookingBody :=
  ⟨.num 1, .str "2024-01-01T00:00:00.000Z", .str "2024-01-01T08:00:00.000Z"⟩

/-- The shop after user 7 booked laptop 1 with the id sent as a string. -/
def afterStringCreate : State :=
  (createBooking sampleRuntime shop 7 stringIdBody 1000).1

/-- User 7 books laptop 1 (booking 1). -/
def twice1 : State := (createBooking sampleRuntime shop 7 numberIdBody 1000).1

/-- User 7 cancels booking 1. -/
def twice2 : State := (cancelBooking sampleRuntime twice1 7 "1" 2000).1

/-- User 8 books laptop 1 (booking 2). -/
def twice3 : State := (createBooking sampleRuntime twice2 8 numberIdBody 3000).1

/-- User 7 cancels booking 1 a second time. -/
def twice4 : State := (cancelBooking sampleRuntime twice3 7 "1" 4000).1

/-- A run of regular requests on `shop`: an admin adds laptop 2, user 7 books
laptop 1, moves the start date, cancels, and the admin deletes laptop 2. -/
def regularRequests : List Request :=
  [ .addLaptop "admin" ⟨.str "HP", .str "Envy", .str "i5", .num 8, .num 256, 15, .undefined⟩,
    .create 7 numberIdBody 1000,
    .update 7 "1" ⟨.str "2024-01-02", .undefined, .undefined⟩,
    .cancel 7 "1" 2000,
    .deleteLaptop "admin" "2" ]

/-- User 7 sets the status of booking 1 to `cancelled` through update. -/
def cancelByUpdate : List Request :=
  [ .update 7 "1" ⟨.undefined, .undefined, .str "cancelled"⟩ ]

/-- Ann asks for an OTP at time 0 (the draw is 5, the code 100005). -/
def issued : State := (forgotPassword shop "ann@example.com" 0 5).1

/-- An admin deletes Ann's account while her OTP is live. -/
def orphaned : State := (deleteUser sampleRuntime issued "admin" "1").1

/-- Ann's reset request with the code she was sent. -/
def annReset : ResetBody := ⟨"ann@example.com", .num 100005, "correct horse"⟩

/-- A reset request of Ann with a wrong code. -/
def annWrong : ResetBody := ⟨"ann@example.com", .str "123456", "correct horse"⟩

/-- A registration with the email `__proto__`. -/
def eve : RegisterBody := ⟨"Eve", "__proto__", "secret", .undefined⟩

/-- Eve registers at `shop`. -/
def protoUser : State := (register sampleRuntime shop eve 0 0).1

/-- Eve asks for an OTP at time 0 (the draw is 5, the code 100005). -/
def protoIssued : State := (forgotPassword protoUser "__proto__" 0 5).1

/-- Eve's reset request with the code she was sent. -/
def eveFirst : ResetBody := ⟨"__proto__", .num 100005, "first"⟩

/-- Eve's reset request with the same code and another password. -/
def eveSecond : ResetBody := ⟨"__proto__", .num 100005, "second"⟩

/-- Eve resets her password one second after the issue. -/
def protoReset : State := (resetPassword sampleRuntime protoIssued eveFirst 1000 0).1

/-- Eve submits the code one millisecond after the expiry. -/
def protoLapsed : State := (resetPassword sampleRuntime protoIssued eveFirst 300001 0).1

/-- User 7 moves the end of booking 1 to 2024-01-05. -/
def extendBody : UpdateBody := ⟨.undefined, .str "2024-01-05", .undefined⟩

/-- User 7 moves the end of booking 1 to 2023-12-30, before its start. -/
def invertBody : UpdateBody := ⟨.undefined, .str "2023-12-30", .undefined⟩

/-- A request for laptop 1 from 2024-01-03 back to 2024-01-01. -/
def invertedBody : BookingBody :=
  ⟨.num 1, .str "2024-01-03", .str "2024-01-01"⟩

/-- The requests that write no status from a request body: every request but
an update that carries a `status`. -/
def KeepsStatus : Request → Prop
  | .update _ _ body => truthy body.status = false
  | _ => True

/-- User 7 sets the status of booking 1 back to `confirmed` through update. -/
def reconfirm : List Request :=
  [ .update 7 "1" ⟨.undefined, .undefined, .str "confirmed"⟩ ]

/-- User 7 gives booking 1 the status `pending` through update. -/
def relabel : List Request :=
  [ .update 7 "1" ⟨.undefined, .undefined, .str "pending"⟩ ]

/-- After booking 1 was cancelled: user 8 books laptop 1, user 7 cancels
booking 1 again and then moves its end date. -/
def afterCancel : List Request :=
  [ .create 8 numberIdBody 3000, .cancel 7 "1" 4000, .update 7 "1" extendBody ]

/-- The booking ids are 1, 2, ..., n in the order of the collection, as create
numbers them (`bookings.length + 1`) from an empty collection. -/
def sequentialIds (bs : List Booking) : Prop :=
  bs.map (fun b => b.id) = (List.range bs.length).map (fun i : Nat => (i : Int) + 1)

/-- Two users, Ann (id 1) and Bob (id 2), with different emails. -/
def twoUsers : State :=
  { users := [⟨1, "Ann", "ann@example.com", "$2a$10$old", "customer", 0⟩,
      ⟨2, "Bob", "bob@example.com", "$2a$10$bob", "customer", 0⟩]
    laptops := []
    bookings := []
    otpStore := OtpStore.empty }

/-- An admin update that sets only the email, to Ann's. -/
def takeEmail : UserUpdateBody := ⟨none, some "ann@example.com", none, none⟩

/-- A registration of Carl that also sends the role `admin`. -/
def carl : RegisterBody := ⟨"Carl", "carl@example.com", "secret", .str "admin"⟩

/-- Two laptops with the ids 1 and 2. -/
def twoLaptops : State :=
  { users := []
    laptops := [⟨1, .str "Dell", .str "XPS", .str "i7", .num 16, .num 512, true, 20,
        .undefined⟩,
      ⟨2, .str "HP", .str "Envy", .str "i5", .num 8, .num 256, true, 15, .undefined⟩]
    bookings := []
    otpStore := OtpStore.empty }

/-- An admin deletes laptop 1 and then adds a laptop. -/
def deleteThenAdd : List Request :=
  [ .deleteLaptop "admin" "1",
    .addLaptop "admin" ⟨.str "Acer", .str "Swift", .str "i3", .num 8, .num 128, 10,
      .undefined⟩ ]

/-- The booking ids are the numbers 1, 2, ..., n in some order, n the size of
the collection. -/
def idsOneToN (bs : List Booking) : Prop :=
  (bs.map (fun b => b.id)).Perm ((List.range bs.length).map (fun i : Nat => (i : Int) + 1))

/-! ## General lemmas -/

theorem roundHalfEven_bounds (y : Rat) :
    Int.floor y ≤ roundHalfEven y ∧ roundHalfEven y ≤ Int.floor y + 1 := by
  unfold roundHalfEven
  simp only
  split_ifs <;> constructor <;> omega

theorem roundHalfEven_intCast (n : Int) : roundHalfEven (n : Rat) = n := by
  unfold roundHalfEven
  simp

theorem roundHalfEven_mono (y1 y2 : Rat) (h : y1 ≤ y2) :
    roundHalfEven y1 ≤ roundHalfEven y2 := by
  have hf : Int.floor y1 ≤ Int.floor y2 := Int.floor_mono h
  rcases lt_or_eq_of_le hf with hlt | heq
  · have h1 := (roundHalfEven_bounds y1).2
    have h2 := (roundHalfEven_bounds y2).1
    omega
  · unfold roundHalfEven
    simp only
    rw [heq]
    have hd : y1 - (Int.floor y2 : Rat) ≤ y2 - (Int.floor y2 : Rat) := by linarith
    split_ifs <;> first | omega | (exfalso; linarith)

theorem two_zpow_pos (e : Int) : (0 : Rat) < 2 ^ e := zpow_pos (by norm_num) e

theorem roundMagnitude_of_int (a : Rat) (n : Int)
    (h : a / 2 ^ spacingExponent a = (n : Rat)) : roundMagnitude a = a := by
  unfold roundMagnitude
  rw [h, roundHalfEven_intCast, ← h]
  field_simp

theorem two_zpow_nonneg_eq_cast (d : Int) (hd : 0 ≤ d) :
    (2 : Rat) ^ d = (((2 : Int) ^ d.toNat : Int) : Rat) := by
  obtain ⟨n, rfl⟩ := Int.eq_ofNat_of_zero_le hd
  simp [zpow_natCast]

theorem log_two_bounds (a : Rat) (ha : 0 < a) :
    (2 : Rat) ^ Int.log 2 a ≤ a ∧ a < (2 : Rat) ^ (Int.log 2 a + 1) := by
  have h1 := Int.zpow_log_le_self (b := 2) (r := a) (by norm_num) ha
  have h2 := Int.lt_zpow_succ_log_self (b := 2) (by norm_num) a
  simp only [Nat.cast_ofNat] at h1 h2
  exact ⟨h1, h2⟩

theorem roundMagnitude_representable (m : Nat) (k : Int) (hm : m ≤ 2 ^ 53)
    (hk : -1074 ≤ k) :
    roundMagnitude ((m : Rat) * 2 ^ k) = (m : Rat) * 2 ^ k := by
  rcases Nat.eq_zero_or_pos m with h0 | hpos
  · subst h0
    apply roundMagnitude_of_int _ 0
    simp
  · have hkpos := two_zpow_pos k
    have ha : (0 : Rat) < (m : Rat) * 2 ^ k := by positivity
    obtain ⟨hl1, hl2⟩ := log_two_bounds _ ha
    have hmq : (m : Rat) ≤ 2 ^ (53 : Int) := by
      have : (m : Rat) ≤ ((2 ^ 53 : Nat) : Rat) := by exact_mod_cast hm
      rw [show ((53 : Int)) = ((53 : Nat) : Int) from rfl, zpow_natCast]
      exact_mod_cast this
    have hle : (m : Rat) * 2 ^ k ≤ 2 ^ (53 + k) := by
      rw [zpow_add₀ (by norm_num : (2 : Rat) ≠ 0)]
      exact mul_le_mul_of_nonneg_right hmq hkpos.le
    have hL : Int.log 2 ((m : Rat) * 2 ^ k) ≤ 53 + k := by
      have := le_trans hl1 hle
      exact (zpow_le_zpow_iff_right₀ (by norm_num : (1 : Rat) < 2)).mp this
    rcases lt_or_eq_of_le hL with hlt | heq
    · -- the spacing exponent is at most k
      have he : spacingExponent ((m : Rat) * 2 ^ k) ≤ k := by
        unfold spacingExponent
        apply max_le <;> omega
      apply roundMagnitude_of_int _
        ((m : Int) * 2 ^ (k - spacingExponent ((m : Rat) * 2 ^ k)).toNat)
      have hd : 0 ≤ k - spacingExponent ((m : Rat) * 2 ^ k) := by omega
      rw [mul_div_assoc, ← zpow_sub₀ (by norm_num : (2 : Rat) ≠ 0),
        two_zpow_nonneg_eq_cast _ hd]
      push_cast
      rfl
    · -- m = 2 ^ 53 and the spacing exponent is k + 1
      have hge : (2 : Rat) ^ (53 + k) ≤ (m : Rat) * 2 ^ k := by
        rw [← heq]; exact hl1
      rw [zpow_add₀ (by norm_num : (2 : Rat) ≠ 0)] at hge
      have hm2 : (2 : Rat) ^ (53 : Int) ≤ (m : Rat) := le_of_mul_le_mul_right hge hkpos
      have hmeq : (m : Rat) = 2 ^ (53 : Int) := le_antisymm hmq hm2
      have he : spacingExponent ((m : Rat) * 2 ^ k) = k + 1 := by
        unfold spacingExponent
        rw [heq, max_eq_left (by omega)]
        omega
      apply roundMagnitude_of_int _ (2 ^ 52)
      rw [he, hmeq, zpow_add₀ (by norm_num : (2 : Rat) ≠ 0)]
      field_simp
      norm_num
      ring

theorem roundHalfEven_small (y : Rat) (h0 : 0 ≤ y) (h1 : y < 1 / 2) :
    roundHalfEven y = 0 := by
  have hf : Int.floor y = 0 := by
    rw [Int.floor_eq_iff]
    constructor
    · simpa using h0
    · norm_num; linarith
  have hlt : y - ((0 : Int) : Rat) < 1 / 2 := by simpa using h1
  unfold roundHalfEven
  simp only
  rw [hf, if_pos hlt]

theorem roundMagnitude_zero : roundMagnitude 0 = 0 := by
  apply roundMagnitude_of_int _ 0
  simp

theorem roundMagnitude_nonneg (a : Rat) (ha : 0 ≤ a) : 0 ≤ roundMagnitude a := by
  unfold roundMagnitude
  have hu := two_zpow_pos (spacingExponent a)
  have h0 : (0 : Int) ≤ roundHalfEven (a / 2 ^ spacingExponent a) := by
    have := roundHalfEven_mono 0 (a / 2 ^ spacingExponent a) (div_nonneg ha hu.le)
    rwa [show (0 : Rat) = ((0 : Int) : Rat) by simp, roundHalfEven_intCast] at this
  have : (0 : Rat) ≤ (roundHalfEven (a / 2 ^ spacingExponent a) : Rat) := by exact_mod_cast h0
  positivity

theorem roundMagnitude_le_next_power (a : Rat) (ha : 0 < a) :
    roundMagnitude a ≤ 2 ^ (Int.log 2 a + 1) := by
  obtain ⟨_, hl2⟩ := log_two_bounds a ha
  have hu := two_zpow_pos (spacingExponent a)
  have hquot : a / 2 ^ spacingExponent a
      < 2 ^ (Int.log 2 a + 1 - spacingExponent a) := by
    rw [zpow_sub₀ (by norm_num : (2 : Rat) ≠ 0)]
    exact div_lt_div_of_pos_right hl2 hu
  by_cases hd : 0 ≤ Int.log 2 a + 1 - spacingExponent a
  · rw [two_zpow_nonneg_eq_cast _ hd] at hquot
    have hr := roundHalfEven_mono _ _ hquot.le
    rw [roundHalfEven_intCast] at hr
    have hr2 : (roundHalfEven (a / 2 ^ spacingExponent a) : Rat)
        ≤ (((2 : Int) ^ (Int.log 2 a + 1 - spacingExponent a).toNat : Int) : Rat) := by
      exact_mod_cast hr
    rw [← two_zpow_nonneg_eq_cast _ hd] at hr2
    unfold roundMagnitude
    calc (roundHalfEven (a / 2 ^ spacingExponent a) : Rat) * 2 ^ spacingExponent a
        ≤ 2 ^ (Int.log 2 a + 1 - spacingExponent a) * 2 ^ spacingExponent a :=
          mul_le_mul_of_nonneg_right hr2 hu.le
      _ = 2 ^ (Int.log 2 a + 1) := by
          rw [← zpow_add₀ (by norm_num : (2 : Rat) ≠ 0)]
          congr 1
          ring
  · have hneg : Int.log 2 a + 1 - spacingExponent a ≤ -1 := by omega
    have hhalf : (2 : Rat) ^ (Int.log 2 a + 1 - spacingExponent a) ≤ 1 / 2 := by
      have := zpow_le_zpow_right₀ (by norm_num : (1 : Rat) ≤ 2) hneg
      simpa using this
    have hz := roundHalfEven_small (a / 2 ^ spacingExponent a)
      (div_nonneg ha.le hu.le) (lt_of_lt_of_le hquot hhalf)
    unfold roundMagnitude
    rw [hz]
    simp only [Int.cast_zero, zero_mul]
    exact (two_zpow_pos _).le

theorem power_le_roundMagnitude (a : Rat) (ha : 0 < a)
    (he : spacingExponent a = Int.log 2 a - 52) :
    (2 : Rat) ^ Int.log 2 a ≤ roundMagnitude a := by
  obtain ⟨hl1, _⟩ := log_two_bounds a ha
  have hu := two_zpow_pos (spacingExponent a)
  have hquot : (2 : Rat) ^ (52 : Int) ≤ a / 2 ^ spacingExponent a := by
    rw [le_div_iff₀ hu, he, ← zpow_add₀ (by norm_num : (2 : Rat) ≠ 0)]
    simpa using hl1
  rw [two_zpow_nonneg_eq_cast 52 (by norm_num)] at hquot
  have hr := roundHalfEven_mono _ _ hquot
  rw [roundHalfEven_intCast] at hr
  have hr2 : (((2 : Int) ^ (52 : Int).toNat : Int) : Rat)
      ≤ (roundHalfEven (a / 2 ^ spacingExponent a) : Rat) := by exact_mod_cast hr
  rw [← two_zpow_nonneg_eq_cast 52 (by norm_num)] at hr2
  unfold roundMagnitude
  calc (2 : Rat) ^ Int.log 2 a = 2 ^ (52 : Int) * 2 ^ spacingExponent a := by
        rw [he, ← zpow_add₀ (by norm_num : (2 : Rat) ≠ 0)]
        congr 1
        ring
    _ ≤ (roundHalfEven (a / 2 ^ spacingExponent a) : Rat) * 2 ^ spacingExponent a :=
        mul_le_mul_of_nonneg_right hr2 hu.le

theorem roundMagnitude_mono (x y : Rat) (hx : 0 ≤ x) (hxy : x ≤ y) :
    roundMagnitude x ≤ roundMagnitude y := by
  rcases eq_or_lt_of_le hx with h0 | hpos
  · rw [← h0, roundMagnitude_zero]
    exact roundMagnitude_nonneg y (le_trans hx hxy)
  · have hy : 0 < y := lt_of_lt_of_le hpos hxy
    have hlog : Int.log 2 x ≤ Int.log 2 y := Int.log_mono_right hpos hxy
    have he : spacingExponent x ≤ spacingExponent y := by
      unfold spacingExponent
      exact max_le_max (by omega) (le_refl _)
    rcases eq_or_lt_of_le he with heq | hlt
    · unfold roundMagnitude
      rw [heq]
      have hu := two_zpow_pos (spacingExponent y)
      have hq : x / 2 ^ spacingExponent y ≤ y / 2 ^ spacingExponent y :=
        div_le_div_of_nonneg_right hxy hu.le
      have hr := roundHalfEven_mono _ _ hq
      have hr2 : (roundHalfEven (x / 2 ^ spacingExponent y) : Rat)
          ≤ (roundHalfEven (y / 2 ^ spacingExponent y) : Rat) := by exact_mod_cast hr
      exact mul_le_mul_of_nonneg_right hr2 hu.le
    · have hey : spacingExponent y = Int.log 2 y - 52 := by
        unfold spacingExponent at hlt ⊢
        have h1 : (-1074 : Int) ≤ max (Int.log 2 x - 52) (-1074) := le_max_right _ _
        rcases max_cases (Int.log 2 y - 52) (-1074) with ⟨h, _⟩ | ⟨h, _⟩
        · exact h
        · rw [h] at hlt; omega
      have hex : Int.log 2 x - 52 ≤ spacingExponent x := le_max_left _ _
      have hstep : Int.log 2 x + 1 ≤ Int.log 2 y := by omega
      calc roundMagnitude x ≤ 2 ^ (Int.log 2 x + 1) := roundMagnitude_le_next_power x hpos
        _ ≤ 2 ^ Int.log 2 y := zpow_le_zpow_right₀ (by norm_num) hstep
        _ ≤ roundMagnitude y := power_le_roundMagnitude y hy hey

theorem roundBinary64_mono (x y a b : Rat) (hxy : x ≤ y)
    (hx : roundBinary64 x = some a) (hy : roundBinary64 y = some b) : a ≤ b := by
  unfold roundBinary64 at hx hy
  by_cases ox : (2 : Rat) ^ (1024 : Nat) ≤ roundMagnitude |x|
  · rw [if_pos ox] at hx
    exact Option.noConfusion hx
  by_cases oy : (2 : Rat) ^ (1024 : Nat) ≤ roundMagnitude |y|
  · rw [if_pos oy] at hy
    exact Option.noConfusion hy
  rw [if_neg ox] at hx
  rw [if_neg oy] at hy
  simp only [Option.some.injEq] at hx hy
  subst hx hy
  have nnx := roundMagnitude_nonneg |x| (abs_nonneg x)
  have nny := roundMagnitude_nonneg |y| (abs_nonneg y)
  by_cases nx : x < 0
  · by_cases ny : y < 0
    · rw [if_pos nx, if_pos ny]
      have hle : |y| ≤ |x| := by rw [abs_of_neg nx, abs_of_neg ny]; linarith
      have := roundMagnitude_mono |y| |x| (abs_nonneg y) hle
      linarith
    · rw [if_pos nx, if_neg ny]
      linarith
  · by_cases ny : y < 0
    · exfalso; linarith
    · rw [if_neg nx, if_neg ny]
      have hle : |x| ≤ |y| := by
        rw [abs_of_nonneg (not_lt.mp nx), abs_of_nonneg (not_lt.mp ny)]; exact hxy
      exact roundMagnitude_mono |x| |y| (abs_nonneg x) hle

theorem roundBinary64_representable (m k : Int) (hm : |m| ≤ 2 ^ 53) (hk : -1074 ≤ k)
    (hfin : |(m : Rat)| * 2 ^ k < 2 ^ (1024 : Nat)) :
    roundBinary64 ((m : Rat) * 2 ^ k) = some ((m : Rat) * 2 ^ k) := by
  have hu := two_zpow_pos k
  have habs : |(m : Rat) * 2 ^ k| = ((m.natAbs : Nat) : Rat) * 2 ^ k := by
    rw [abs_mul, abs_of_pos hu, Nat.cast_natAbs, Int.cast_abs]
  have hnat : m.natAbs ≤ 2 ^ 53 := by
    have : (m.natAbs : Int) ≤ 2 ^ 53 := by rw [Int.natCast_natAbs]; exact hm
    exact_mod_cast this
  have hmag := roundMagnitude_representable m.natAbs k hnat hk
  unfold roundBinary64
  rw [habs, hmag]
  have hlt : ¬ (2 : Rat) ^ (1024 : Nat) ≤ ((m.natAbs : Nat) : Rat) * 2 ^ k := by
    rw [← habs, abs_mul, abs_of_pos hu]
    exact not_le.mpr hfin
  rw [if_neg hlt]
  congr 1
  split_ifs with hneg
  · have hmneg : (m : Rat) < 0 := by
      by_contra hc
      have : 0 ≤ (m : Rat) * 2 ^ k := mul_nonneg (not_lt.mp hc) hu.le
      linarith
    rw [Nat.cast_natAbs, Int.cast_abs, abs_of_neg hmneg]
    ring
  · have hmnn : 0 ≤ (m : Rat) := by
      by_contra hc
      have : (m : Rat) * 2 ^ k < 0 := mul_neg_of_neg_of_pos (not_le.mp hc) hu
      exact hneg this
    rw [Nat.cast_natAbs, Int.cast_abs, abs_of_nonneg hmnn]

theorem roundBinary64_int (n : Int) (hn : |n| ≤ 2 ^ 53) :
    roundBinary64 (n : Rat) = some (n : Rat) := by
  have h := roundBinary64_representable n 0 hn (by norm_num) (by
    simp only [zpow_zero, mul_one]
    have h1 : |(n : Rat)| ≤ 2 ^ 53 := by exact_mod_cast hn
    have h2 : (2 : Rat) ^ 53 < 2 ^ 1024 := by norm_num
    linarith)
  simpa using h

theorem roundHalfEven_of_floor (y : Rat) (f : Int) (h1 : (f : Rat) ≤ y) (h2 : y < f + 1) :
    roundHalfEven y =
      if y - f < 1 / 2 then f else if 1 / 2 < y - f then f + 1
      else if f % 2 = 0 then f else f + 1 := by
  have hf : Int.floor y = f := Int.floor_eq_iff.mpr ⟨h1, h2⟩
  unfold roundHalfEven
  simp only [hf]

theorem spacingExponent_of_binade (a : Rat) (e : Int) (he : -1074 ≤ e)
    (hlo : (2 : Rat) ^ (e + 52) ≤ a) (hhi : a < (2 : Rat) ^ (e + 53)) :
    spacingExponent a = e := by
  have ha : 0 < a := lt_of_lt_of_le (two_zpow_pos _) hlo
  obtain ⟨hl1, hl2⟩ := log_two_bounds a ha
  have h1 : e + 52 < Int.log 2 a + 1 :=
    (zpow_lt_zpow_iff_right₀ (by norm_num : (1 : Rat) < 2)).mp (lt_of_le_of_lt hlo hl2)
  have h2 : Int.log 2 a < e + 53 :=
    (zpow_lt_zpow_iff_right₀ (by norm_num : (1 : Rat) < 2)).mp (lt_of_le_of_lt hl1 hhi)
  unfold spacingExponent
  have : Int.log 2 a = e + 52 := by omega
  rw [this, max_eq_left (by omega)]
  omega

/-- Rounding a positive number of a known binade: scale by the spacing `2 ^ e`
of the doubles there, round to the nearest integer, ties to even, scale back. -/
theorem roundBinary64_of_binade (a : Rat) (e n : Int) (he : -1074 ≤ e)
    (hlo : (2 : Rat) ^ (e + 52) ≤ a) (hhi : a < (2 : Rat) ^ (e + 53))
    (hn : roundHalfEven (a / 2 ^ e) = n)
    (hfin : (n : Rat) * 2 ^ e < 2 ^ (1024 : Nat)) :
    roundBinary64 a = some ((n : Rat) * 2 ^ e) := by
  have ha : 0 < a := lt_of_lt_of_le (two_zpow_pos _) hlo
  have hm : roundMagnitude a = (n : Rat) * 2 ^ e := by
    unfold roundMagnitude
    rw [spacingExponent_of_binade a e he hlo hhi, hn]
  unfold roundBinary64
  rw [abs_of_pos ha, hm, if_neg (not_le.mpr hfin), if_neg (not_lt.mpr ha.le)]

theorem tooLate_eq (now created_at : Int) :
    tooLate now created_at = decide (now - created_at > 24 * (1000 * 60 * 60)) := by
  unfold tooLate
  congr 1
  rw [gt_iff_lt, gt_iff_lt, lt_div_iff₀ (by norm_num), eq_iff_iff]
  constructor
  · intro h; exact_mod_cast h
  · intro h; exact_mod_cast h

theorem newDate_jan1 :
    sampleRuntime.newDate (.str "2024-01-01") = some 1704067200000 := by decide

theorem newDate_jan3 :
    sampleRuntime.newDate (.str "2024-01-03") = some 1704240000000 := by decide

theorem newDate_midnight :
    sampleRuntime.newDate (.str "2024-01-01T00:00:00.000Z") = some 1704067200000 := by decide

theorem newDate_eight :
    sampleRuntime.newDate (.str "2024-01-01T08:00:00.000Z") = some 1704096000000 := by decide

theorem newDate_noon :
    sampleRuntime.newDate (.str "2024-01-01T12:00:00.000Z") = some 1704110400000 := by decide

/-! ## Create booking -/

/-- C3: create on a laptop id that denotes no laptop, or a laptop that is not
available, answers 400 "Laptop not available" and changes nothing. -/
theorem createBooking_not_available (rt : Runtime) (s : State) (user_id : Int)
    (body : BookingBody) (now : Int)
    (h : ∀ l, s.laptops.find? (fun l => some l.id == rt.Number body.laptop_id) = some l →
      l.available = false) :
    createBooking rt s user_id body now = (s, Response.msg 400 "Laptop not available") := by
  unfold createBooking
  cases hfind : s.laptops.find? (fun l => some l.id == rt.Number body.laptop_id) with
  | none => rfl
  | some l => simp [h l hfind]

/-- C3, witness: laptop 1 of `shopBooked` is held, a second create on it by
another user is refused. -/
theorem createBooking_not_available_witness :
    (∀ l, shopBooked.laptops.find?
        (fun l => some l.id == sampleRuntime.Number numberIdBody.laptop_id) = some l →
      l.available = false) ∧
    createBooking sampleRuntime shopBooked 9 numberIdBody 5
      = (shopBooked, Response.msg 400 "Laptop not available") :=
  have h : ∀ l, shopBooked.laptops.find?
        (fun l => some l.id == sampleRuntime.Number numberIdBody.laptop_id) = some l →
      l.available = false := by
    intro l hl
    simp [shopBooked, numberIdBody, Runtime.Number] at hl
    rw [← hl]
  ⟨h, createBooking_not_available sampleRuntime shopBooked 9 numberIdBody 5 h⟩

/-! ## Lists mutated in place -/

theorem modifyFirst_of_find_none {α : Type} (p : α → Bool) (f : α → α) (l : List α)
    (h : l.find? p = none) : modifyFirst p f l = l := by
  induction l with
  | nil => rfl
  | cons x xs ih =>
    by_cases hx : p x = true
    · simp [List.find?, hx] at h
    · simp only [Bool.not_eq_true] at hx
      simp only [List.find?, hx] at h
      simp [modifyFirst, hx, ih h]

theorem modifyFirst_eq_map {α : Type} (p : α → Bool) (f : α → α) (key : α → Int)
    (hp : ∀ x y, p x = true → p y = true → key x = key y) (l : List α)
    (hnd : (l.map key).Nodup) :
    modifyFirst p f l = l.map (fun x => if p x then f x else x) := by
  induction l with
  | nil => rfl
  | cons x xs ih =>
    rw [List.map_cons, List.nodup_cons] at hnd
    by_cases hx : p x = true
    · simp only [modifyFirst, hx, if_true, List.map_cons, List.cons.injEq, true_and]
      symm
      calc xs.map (fun x => if p x then f x else x) = xs.map id := by
            apply List.map_congr_left
            intro y hy
            have hy2 : p y ≠ true := by
              intro hpy
              apply hnd.1
              rw [hp x y hx hpy]
              exact List.mem_map_of_mem key hy
            simp [hy2]
        _ = xs := List.map_id xs
    · simp [modifyFirst, hx, ih hnd.2]

theorem countP_modifyFirst {α : Type} (p q : α → Bool) (f : α → α) (l : List α) (b : α)
    (h : l.find? p = some b) :
    (modifyFirst p f l).countP q + (if q b then 1 else 0)
      = l.countP q + (if q (f b) then 1 else 0) := by
  induction l with
  | nil => simp at h
  | cons x xs ih =>
    by_cases hx : p x = true
    · simp only [List.find?, hx, Option.some.injEq] at h
      subst h
      simp only [modifyFirst, hx, if_true, List.countP_cons]
      omega
    · simp only [Bool.not_eq_true] at hx
      simp only [List.find?, hx] at h
      simp only [modifyFirst, hx, Bool.false_eq_true, if_false, List.countP_cons]
      have := ih h
      omega

theorem mem_of_find {α : Type} (p : α → Bool) (l : List α) (b : α)
    (h : l.find? p = some b) : b ∈ l ∧ p b = true :=
  ⟨List.mem_of_find?_eq_some h, List.find?_some h⟩

/-! ## The availability invariant -/

theorem confirmedOn_append (bs : List Booking) (b : Booking) (k : Int) :
    confirmedOn (bs ++ [b]) k
      = confirmedOn bs k
        + (if (b.status == Val.str "confirmed" && Val.num k == b.laptop_id) = true
            then 1 else 0) := by
  simp [confirmedOn, List.countP_append, List.countP_cons]

theorem Consistent.availability (s : State) (h : Consistent s) : AvailabilityInvariant s := by
  intro l hl
  have := h.2 l hl
  cases hav : l.available <;> simp [hav] at this ⊢ <;> omega

theorem map_id_setAvailable (p : Laptop → Bool) (v : Bool) (ls : List Laptop) :
    (ls.map (fun l => if p l = true then { l with available := v } else l)).map
        (fun l => l.id)
      = ls.map (fun l => l.id) := by
  rw [List.map_map]
  apply List.map_congr_left
  intro l _
  simp only [Function.comp]
  split_ifs <;> rfl

theorem createBooking_consistent (rt : Runtime) (s : State) (user_id : Int)
    (body : BookingBody) (now : Int) (n : Int) (hn : body.laptop_id = Val.num n)
    (h : Consistent s) : Consistent (createBooking rt s user_id body now).1 := by
  unfold createBooking
  cases hfind : s.laptops.find? (fun l => some l.id == rt.Number body.laptop_id) with
  | none => exact h
  | some laptop =>
    obtain ⟨hmem, hp⟩ := mem_of_find _ _ _ hfind
    cases hav : laptop.available with
    | false => simpa [hav] using h
    | true =>
      simp only [hav, Bool.not_true, Bool.false_eq_true, if_false]
      have hid : laptop.id = n := by simpa [hn, Runtime.Number] using hp
      have hzero : confirmedOn s.bookings n = 0 := by
        have := h.2 laptop hmem
        simpa [hav, hid] using this
      have hmap : modifyFirst (fun l => some l.id == rt.Number body.laptop_id)
            (fun l => { l with available := false }) s.laptops
          = s.laptops.map (fun l => if (some l.id == rt.Number body.laptop_id) = true
              then { l with available := false } else l) :=
        modifyFirst_eq_map _ _ (fun l => l.id)
          (fun x y hx hy => by
            simp only [hn, Runtime.Number, beq_iff_eq, Option.some.injEq] at hx hy
            show x.id = y.id
            rw [hx, hy]) s.laptops h.1
      rw [hmap]
      constructor
      · show ((s.laptops.map _).map (fun l : Laptop => l.id)).Nodup
        rw [map_id_setAvailable]
        exact h.1
      · intro l' hl'
        simp only [List.mem_map] at hl'
        obtain ⟨l, hl, rfl⟩ := hl'
        have hcons := h.2 l hl
        by_cases hln : l.id = n
        · have hpl : (some l.id == rt.Number body.laptop_id) = true := by
            simp [hn, Runtime.Number, hln]
          rw [if_pos hpl]
          simp [confirmedOn_append, hn, hln, hzero]
        · have hpl : ¬ (some l.id == rt.Number body.laptop_id) = true := by
            simp [hn, Runtime.Number, hln]
          have hne : ¬ n = l.id := fun e => hln e.symm
          rw [if_neg hpl]
          simp [confirmedOn_append, hn, hln, hcons]

theorem cancelBooking_consistent (rt : Runtime) (s : State) (user_id : Int) (id : String)
    (now : Int)
    (hreg : ∀ b, s.bookings.find?
        (fun b => some b.id == rt.parseInt (.str id) && b.user_id == user_id) = some b →
      b.status = Val.str "confirmed")
    (h : Consistent s) : Consistent (cancelBooking rt s user_id id now).1 := by
  unfold cancelBooking
  simp only
  cases hfind : s.bookings.find?
      (fun b => some b.id == rt.parseInt (.str id) && b.user_id == user_id) with
  | none => exact h
  | some booking =>
    have hst := hreg booking hfind
    cases hlate : tooLate now booking.created_at with
    | true => simpa [hlate] using h
    | false =>
      simp only [hlate, Bool.false_eq_true, if_false]
      have hmap : modifyFirst (fun l => Val.num l.id == booking.laptop_id)
            (fun l => { l with available := true }) s.laptops
          = s.laptops.map (fun l => if (Val.num l.id == booking.laptop_id) = true
              then { l with available := true } else l) :=
        modifyFirst_eq_map _ _ (fun l => l.id)
          (fun x y hx hy => by
            simp only [beq_iff_eq] at hx hy
            have := hx.trans hy.symm
            simpa using this) s.laptops h.1
      rw [hmap]
      constructor
      · show ((s.laptops.map _).map (fun l : Laptop => l.id)).Nodup
        rw [map_id_setAvailable]
        exact h.1
      · intro l' hl'
        simp only [List.mem_map] at hl'
        obtain ⟨l, hl, rfl⟩ := hl'
        have hcons := h.2 l hl
        have hcount := countP_modifyFirst
          (fun b => some b.id == rt.parseInt (.str id) && b.user_id == user_id)
          (fun b => b.status == Val.str "confirmed" && Val.num l.id == b.laptop_id)
          (fun b => { b with status := .str "cancelled" }) s.bookings booking hfind
        have hc : (Val.str "cancelled" == Val.str "confirmed") = false := by decide
        simp only [hst, hc, beq_self_eq_true, Bool.true_and, Bool.false_and,
          Bool.false_eq_true, if_false, add_zero] at hcount
        unfold confirmedOn at hcons ⊢
        by_cases hl2 : (Val.num l.id == booking.laptop_id) = true
        · rw [if_pos hl2]
          rw [if_pos hl2] at hcount
          dsimp only at hcons hcount ⊢
          rw [if_pos rfl]
          cases hav : l.available <;> simp only [hav, if_true, if_false,
            Bool.false_eq_true] at hcons <;> omega
        · rw [if_neg hl2]
          rw [if_neg hl2, add_zero] at hcount
          rw [hcount]
          exact hcons

theorem applyUpdate_status (rt : Runtime) (laptops : List Laptop) (body : UpdateBody)
    (b : Booking) (hs : truthy body.status = false) :
    (applyUpdate rt laptops body b).status = b.status ∧
    (applyUpdate rt laptops body b).laptop_id = b.laptop_id := by
  unfold applyUpdate
  simp only [hs, Bool.false_eq_true, if_false]
  split <;> (constructor <;> (split_ifs <;> rfl))

theorem updateBooking_consistent (rt : Runtime) (s : State) (user_id : Int) (id : String)
    (body : UpdateBody) (hs : truthy body.status = false)
    (h : Consistent s) : Consistent (updateBooking rt s user_id id body).1 := by
  unfold updateBooking
  simp only
  cases hfind : s.bookings.find?
      (fun b => some b.id == rt.parseInt (.str id) && b.user_id == user_id) with
  | none => exact h
  | some booking =>
    refine ⟨h.1, ?_⟩
    intro l hl
    have hcons := h.2 l hl
    have hcount := countP_modifyFirst
      (fun b => some b.id == rt.parseInt (.str id) && b.user_id == user_id)
      (fun b => b.status == Val.str "confirmed" && Val.num l.id == b.laptop_id)
      (applyUpdate rt s.laptops body) s.bookings booking hfind
    obtain ⟨h1, h2⟩ := applyUpdate_status rt s.laptops body booking hs
    simp only [h1, h2] at hcount
    unfold confirmedOn at hcons ⊢
    simp only at hcount ⊢
    omega

theorem addLaptop_consistent (s : State) (role : String) (body : LaptopBody)
    (hfresh : ∀ l ∈ s.laptops, l.id ≠ (s.laptops.length : Int) + 1)
    (hfree : confirmedOn s.bookings ((s.laptops.length : Int) + 1) = 0)
    (h : Consistent s) : Consistent (addLaptop s role body).1 := by
  unfold addLaptop
  by_cases hrole : role = "admin"
  · simp only [hrole, ne_eq, not_true_eq_false, if_false]
    constructor
    · simp only [List.map_append, List.map_cons, List.map_nil]
      rw [List.nodup_append]
      refine ⟨h.1, List.nodup_singleton _, ?_⟩
      intro a ha hb
      simp only [List.mem_map] at ha
      obtain ⟨l, hl, rfl⟩ := ha
      simp only [List.mem_singleton] at hb
      exact hfresh l hl hb
    · intro l hl
      simp only [List.mem_append, List.mem_singleton] at hl
      rcases hl with hl | rfl
      · exact h.2 l hl
      · simpa using hfree
  · simpa [hrole] using h

theorem deleteLaptop_consistent (rt : Runtime) (s : State) (role : String) (id : String)
    (h : Consistent s) : Consistent (deleteLaptop rt s role id).1 := by
  unfold deleteLaptop
  by_cases hrole : role = "admin"
  · simp only [hrole, ne_eq, not_true_eq_false, if_false]
    cases hidx : s.laptops.findIdx? (fun l => some l.id == rt.parseInt (.str id)) with
    | none => exact h
    | some index =>
      have hsub : (s.laptops.eraseIdx index).Sublist s.laptops := List.eraseIdx_sublist _ _
      exact ⟨h.1.sublist (hsub.map _), fun l hl => h.2 l (hsub.subset hl)⟩
  · simpa [hrole] using h

theorem handle_consistent (rt : Runtime) (s : State) (r : Request)
    (hreg : Regular rt s r) (h : Consistent s) : Consistent (handle rt s r) := by
  cases r with
  | create user_id body now =>
    obtain ⟨n, hn⟩ := hreg
    exact createBooking_consistent rt s user_id body now n hn h
  | cancel user_id id now => exact cancelBooking_consistent rt s user_id id now hreg h
  | update user_id id body => exact updateBooking_consistent rt s user_id id body hreg h
  | addLaptop role body => exact addLaptop_consistent s role body hreg.1 hreg.2 h
  | deleteLaptop role id => exact deleteLaptop_consistent rt s role id h

/-- C1, as amended: from a state with pairwise distinct laptop ids in which an
unavailable laptop has exactly one confirmed booking and an available laptop has
none, the same holds, and with it the availability invariant, after every
sequence of regular requests. -/
theorem availability_kept (rt : Runtime) (rs : List Request) (s : State)
    (h : Consistent s) (hr : RegularRun rt s rs) :
    Consistent (run rt s rs) ∧ AvailabilityInvariant (run rt s rs) := by
  induction rs generalizing s with
  | nil => exact ⟨h, Consistent.availability s h⟩
  | cons r rs ih => exact ih (handle rt s r) (handle_consistent rt s r hr.1 h) hr.2

theorem shop_consistent : Consistent shop := by
  unfold Consistent
  decide

theorem regularRequests_regular : RegularRun sampleRuntime shop regularRequests := by
  simp only [regularRequests, RegularRun, Regular, handle, and_true]
  refine ⟨by decide, ⟨1, rfl⟩, rfl, ?_⟩
  intro b hb
  have hall : ∀ b ∈ (updateBooking sampleRuntime
      (createBooking sampleRuntime (addLaptop shop "admin"
        ⟨.str "HP", .str "Envy", .str "i5", .num 8, .num 256, 15, .undefined⟩).1 7
        numberIdBody 1000).1 7 "1" ⟨.str "2024-01-02", .undefined, .undefined⟩).1.bookings.find?
        (fun b => some b.id == sampleRuntime.parseInt (.str "1") && b.user_id == 7),
      b.status = Val.str "confirmed" := by decide
  exact hall b hb

/-- C1, witness: the run `regularRequests` from `shop`. -/
theorem availability_kept_witness :
    Consistent shop ∧ RegularRun sampleRuntime shop regularRequests ∧
    Consistent (run sampleRuntime shop regularRequests) ∧
    AvailabilityInvariant (run sampleRuntime shop regularRequests) :=
  ⟨shop_consistent, regularRequests_regular,
    availability_kept sampleRuntime regularRequests shop shop_consistent
      regularRequests_regular⟩

/-- C1, counterexample: `shopBooked` satisfies the availability invariant as
the claim states it; after an update that sets the status of booking 1 to
`cancelled`, laptop 1 is still unavailable with no confirmed booking. -/
theorem update_breaks_availability :
    AvailabilityInvariant shopBooked ∧
    ¬ AvailabilityInvariant (run sampleRuntime shopBooked cancelByUpdate) := by
  unfold AvailabilityInvariant
  constructor
  · decide
  · decide

/-! ## Cancel booking -/

/-- C4, at the failing input: user 7 books laptop 1 with the id sent as the
string "1"; create finds the laptop through `Number` and marks it unavailable,
and stores the string. The owner's cancel one second later succeeds and sets
the status to `cancelled`, but its lookup `l.id === booking.laptop_id` finds no
laptop: laptop 1 stays unavailable. -/
theorem cancel_leaves_laptop_held :
    (createBooking sampleRuntime shop 7 stringIdBody 1000).2.status = 201 ∧
    afterStringCreate.laptops.map (fun l => (l.id, l.available)) = [(1, false)] ∧
    afterStringCreate.bookings.map (fun b => (b.id, b.laptop_id, b.user_id, b.status, b.created_at))
      = [(1, .str "1", 7, .str "confirmed", 1000)] ∧
    (cancelBooking sampleRuntime afterStringCreate 7 "1" 2000).2.status = 200 ∧
    (cancelBooking sampleRuntime afterStringCreate 7 "1" 2000).1.bookings.map
      (fun b => (b.id, b.status)) = [(1, .str "cancelled")] ∧
    (cancelBooking sampleRuntime afterStringCreate 7 "1" 2000).1.laptops.map
      (fun l => (l.id, l.available)) = [(1, false)] := by
  simp only [cancelBooking, tooLate_eq]
  decide

/-- C5, at the failing input: user 7 books laptop 1 and cancels; user 8 books
laptop 1; user 7 cancels booking 1 again. The second cancel answers 200 and
sets laptop 1 available although booking 2 of user 8 is confirmed on it. -/
theorem second_cancel_frees_held_laptop :
    (cancelBooking sampleRuntime twice1 7 "1" 2000).2.status = 200 ∧
    twice2.bookings.map (fun b => (b.id, b.status)) = [(1, .str "cancelled")] ∧
    (createBooking sampleRuntime twice2 8 numberIdBody 3000).2.status = 201 ∧
    twice3.laptops.map (fun l => (l.id, l.available)) = [(1, false)] ∧
    twice3.bookings.map (fun b => (b.id, b.laptop_id, b.user_id, b.status))
      = [(1, .num 1, 7, .str "cancelled"), (2, .num 1, 8, .str "confirmed")] ∧
    (cancelBooking sampleRuntime twice3 7 "1" 4000).2.status = 200 ∧
    twice4.laptops.map (fun l => (l.id, l.available)) = [(1, true)] ∧
    twice4.bookings.map (fun b => (b.id, b.laptop_id, b.user_id, b.status))
      = [(1, .num 1, 7, .str "cancelled"), (2, .num 1, 8, .str "confirmed")] ∧
    confirmedOn twice4.bookings 1 = 1 := by
  simp only [twice4, twice3, twice2, twice1, cancelBooking, tooLate_eq]
  decide

/-! ## Password recovery -/

theorem find_modifyFirst {α : Type} (p : α → Bool) (f : α → α) (hf : ∀ x, p (f x) = p x)
    (l : List α) : (modifyFirst p f l).find? p = (l.find? p).map f := by
  induction l with
  | nil => rfl
  | cons x xs ih =>
    by_cases hx : p x = true
    · simp [modifyFirst, hx, List.find?, hf]
    · simp only [Bool.not_eq_true] at hx
      simp [modifyFirst, hx, List.find?, ih]

theorem randomInt_range (seed : Nat) (min max : Int) (h : min < max) :
    min ≤ randomInt seed min max ∧ randomInt seed min max < max := by
  unfold randomInt
  have h1 := Int.emod_nonneg (seed : Int) (show max - min ≠ 0 by omega)
  have h2 := Int.emod_lt_of_pos (seed : Int) (show 0 < max - min by omega)
  constructor <;> omega

theorem otpGet_otpSet (store : OtpStore) (email : String) (r : OtpRecord) :
    otpGet (otpSet store email r) email = .record r := by
  unfold otpGet otpSet
  by_cases h : email = "__proto__"
  · simp [h]
  · simp [h]

theorem otpGet_otpSet_other (store : OtpStore) (email : String) (r : OtpRecord)
    (he : email ≠ "__proto__") (k : String) (hk : k ≠ email) :
    otpGet (otpSet store email r) k = otpGet store k := by
  unfold otpGet otpSet
  simp [he, hk]

theorem own_otpSet_other (store : OtpStore) (email : String) (r : OtpRecord)
    (k : String) (hk : k ≠ email) :
    (otpSet store email r).own k = store.own k := by
  unfold otpSet
  by_cases h : email = "__proto__"
  · simp [h]
  · simp [h, hk]

theorem otpGet_otpDelete (store : OtpStore) (email : String) (he : email ≠ "__proto__") :
    (otpDelete store email).own email = none ∧
    ∀ r, otpGet (otpDelete store email) email ≠ .record r := by
  unfold otpGet otpDelete
  simp only [he, if_false]
  refine ⟨by simp, ?_⟩
  intro r
  simp only [if_true]
  cases store.proto with
  | none => split_ifs <;> simp
  | some q => simp only; split_ifs <;> simp

theorem forgotPassword_of_user (s : State) (email : String) (now : Int) (seed : Nat)
    (u : User) (hu : s.users.find? (fun u => u.email == email) = some u) :
    forgotPassword s email now seed
      = ({ s with otpStore := (otpSet s.otpStore email
            ⟨randomInt seed 100000 999999, now + OTP_EXPIRATION_TIME⟩) },
          ⟨200, "OTP sent to " ++ email, none, none, some (randomInt seed 100000 999999)⟩) := by
  unfold forgotPassword
  rw [hu]

theorem resetPassword_no_record (rt : Runtime) (s : State) (body : ResetBody) (now : Int)
    (salt : Nat)
    (h : otpGet s.otpStore body.email = .undefined ∨
      otpGet s.otpStore body.email = .inherited false) :
    resetPassword rt s body now salt = (s, Response.msg 400 "OTP not found") := by
  unfold resetPassword
  rcases h with h | h <;> rw [h]

theorem resetPassword_inherited (rt : Runtime) (s : State) (body : ResetBody) (now : Int)
    (salt : Nat) (h : otpGet s.otpStore body.email = .inherited true) :
    resetPassword rt s body now salt = (s, Response.msg 400 "Invalid OTP") := by
  unfold resetPassword
  rw [h]

theorem resetPassword_expired (rt : Runtime) (s : State) (body : ResetBody) (now : Int)
    (salt : Nat) (r : OtpRecord) (h : otpGet s.otpStore body.email = .record r)
    (ht : now > r.expiration) :
    resetPassword rt s body now salt
      = ({ s with otpStore := otpDelete s.otpStore body.email },
          Response.msg 400 "OTP has expired") := by
  unfold resetPassword
  rw [h]
  simp [ht]

theorem resetPassword_mismatch (rt : Runtime) (s : State) (body : ResetBody) (now : Int)
    (salt : Nat) (r : OtpRecord) (h : otpGet s.otpStore body.email = .record r)
    (ht : now ≤ r.expiration) (hm : rt.parseInt body.otp ≠ some r.otp) :
    resetPassword rt s body now salt = (s, Response.msg 400 "Invalid OTP") := by
  unfold resetPassword
  rw [h]
  have h1 : ¬ now > r.expiration := by omega
  have h2 : some r.otp ≠ rt.parseInt body.otp := fun e => hm e.symm
  simp [h1, h2]

theorem resetPassword_no_user (rt : Runtime) (s : State) (body : ResetBody) (now : Int)
    (salt : Nat) (r : OtpRecord) (h : otpGet s.otpStore body.email = .record r)
    (ht : now ≤ r.expiration) (hm : rt.parseInt body.otp = some r.otp)
    (hu : s.users.find? (fun u => u.email == body.email) = none) :
    resetPassword rt s body now salt = (s, Response.msg 404 "User not found") := by
  unfold resetPassword
  rw [h]
  have h1 : ¬ now > r.expiration := by omega
  simp [h1, hm, hu]

theorem resetPassword_success (rt : Runtime) (s : State) (body : ResetBody) (now : Int)
    (salt : Nat) (r : OtpRecord) (u : User)
    (h : otpGet s.otpStore body.email = .record r)
    (ht : now ≤ r.expiration) (hm : rt.parseInt body.otp = some r.otp)
    (hu : s.users.find? (fun u => u.email == body.email) = some u) :
    resetPassword rt s body now salt
      = ({ s with
            users := modifyFirst (fun u => u.email == body.email)
              (fun u => { u with password := rt.bcryptHash body.newPassword salt }) s.users
            otpStore := otpDelete s.otpStore body.email },
          Response.msg 200 "Password reset successfully") := by
  unfold resetPassword
  rw [h]
  have h1 : ¬ now > r.expiration := by omega
  simp [h1, hm, hu]

/-- C6, at the failing input: Eve registers with the email `__proto__` and asks
for an OTP. The assignment `otpStore[email] = record` makes the record the
prototype of the store; her reset with the code succeeds, but
`delete otpStore[email]` removes nothing, the record is still read, and a
second reset with the same code succeeds again and replaces the password
again. -/
theorem reset_twice_with_one_code :
    (register sampleRuntime shop eve 0 0).2.status = 201 ∧
    (forgotPassword protoUser "__proto__" 0 5).2.otp = some 100005 ∧
    otpGet protoIssued.otpStore "__proto__" = .record ⟨100005, 300000⟩ ∧
    (resetPassword sampleRuntime protoIssued eveFirst 1000 0).2
      = Response.msg 200 "Password reset successfully" ∧
    protoReset.users.map (fun u => (u.email, u.password))
      = [("ann@example.com", "$2a$10$old"), ("__proto__", "$2a$10$first")] ∧
    otpGet protoReset.otpStore "__proto__" = .record ⟨100005, 300000⟩ ∧
    (resetPassword sampleRuntime protoReset eveSecond 2000 0).2
      = Response.msg 200 "Password reset successfully" ∧
    (resetPassword sampleRuntime protoReset eveSecond 2000 0).1.users.map
        (fun u => (u.email, u.password))
      = [("ann@example.com", "$2a$10$old"), ("__proto__", "$2a$10$second")] := by
  decide

/-- C7, at the failing input: Eve, registered with the email `__proto__`, is
issued an OTP at time 0 and submits it at 300001 ms. The answer is 400
"OTP has expired", but `delete otpStore[email]` removes nothing: the record is
still read and the next attempt answers "OTP has expired" again, not
"OTP not found". -/
theorem expired_record_stays :
    otpGet protoIssued.otpStore "__proto__" = .record ⟨100005, 300000⟩ ∧
    (resetPassword sampleRuntime protoIssued eveFirst 300001 0).2
      = Response.msg 400 "OTP has expired" ∧
    protoLapsed.users = protoIssued.users ∧
    otpGet protoLapsed.otpStore "__proto__" = .record ⟨100005, 300000⟩ ∧
    (resetPassword sampleRuntime protoLapsed eveFirst 300002 0).2
      = Response.msg 400 "OTP has expired" ∧
    (resetPassword sampleRuntime protoLapsed eveFirst 300002 0).2
      ≠ Response.msg 400 "OTP not found" := by
  decide

/-- The key names nothing on the prototype chain of the store: it is not
`__proto__`, not a member of `Object.prototype`, and not a field of a record
installed as prototype. -/
theorem otpGet_plain_key (store : OtpStore) (email : String)
    (h1 : email ≠ "__proto__") (h2 : email ∉ objectPrototypeKeys)
    (h3 : store.proto = none ∨ (email ≠ "otp" ∧ email ≠ "expiration")) :
    otpGet (otpDelete store email) email = .undefined := by
  unfold otpGet otpDelete
  simp only [h1, if_false, if_true]
  rcases h3 with h3 | ⟨h3, h4⟩
  · simp [h3, h2]
  · cases store.proto with
    | none => simp [h2]
    | some q => simp [h2, h3, h4]

/-- For an email that names nothing on the prototype chain of the store, the
OTP is single use: issued at `T` for the email of a user, it is accepted with
the issued code at any time up to `T` + 5 minutes, the first user with the email
gets the new hash and the record is deleted, and every further attempt answers
400 "OTP not found" and changes nothing. -/
theorem otp_single_use_plain_key (rt : Runtime) (s s1 s2 : State) (email : String)
    (T : Int) (seed : Nat) (u : User) (otp : Val) (newPassword : String) (t : Int)
    (salt : Nat)
    (k1 : email ≠ "__proto__") (k2 : email ∉ objectPrototypeKeys)
    (k3 : s.otpStore.proto = none ∨ (email ≠ "otp" ∧ email ≠ "expiration"))
    (hu : s.users.find? (fun u => u.email == email) = some u)
    (hc : rt.parseInt otp = some (randomInt seed 100000 999999))
    (ht : t ≤ T + 5 * 60 * 1000)
    (h1 : (forgotPassword s email T seed).1 = s1)
    (h2 : (resetPassword rt s1 ⟨email, otp, newPassword⟩ t salt).1 = s2) :
    (resetPassword rt s1 ⟨email, otp, newPassword⟩ t salt).2
      = Response.msg 200 "Password reset successfully" ∧
    s2.users = modifyFirst (fun u => u.email == email)
      (fun u => { u with password := rt.bcryptHash newPassword salt }) s.users ∧
    otpGet s2.otpStore email = .undefined ∧
    ∀ (otp' : Val) (newPassword' : String) (t' : Int) (salt' : Nat),
      resetPassword rt s2 ⟨email, otp', newPassword'⟩ t' salt'
        = (s2, Response.msg 400 "OTP not found") := by
  have hf := forgotPassword_of_user s email T seed u hu
  have hs1 : s1 = { s with otpStore := (otpSet s.otpStore email
      ⟨randomInt seed 100000 999999, T + OTP_EXPIRATION_TIME⟩) } := by rw [← h1, hf]
  subst hs1
  have hr := resetPassword_success rt { s with otpStore := (otpSet s.otpStore email
      ⟨randomInt seed 100000 999999, T + OTP_EXPIRATION_TIME⟩) }
    ⟨email, otp, newPassword⟩ t salt
    ⟨randomInt seed 100000 999999, T + OTP_EXPIRATION_TIME⟩ u
    (otpGet_otpSet _ _ _) (by simpa [OTP_EXPIRATION_TIME] using ht) hc hu
  rw [hr] at h2
  subst h2
  have hproto : (otpSet s.otpStore email
      ⟨randomInt seed 100000 999999, T + OTP_EXPIRATION_TIME⟩).proto = s.otpStore.proto := by
    unfold otpSet
    simp [k1]
  have hgone := otpGet_plain_key (otpSet s.otpStore email
      ⟨randomInt seed 100000 999999, T + OTP_EXPIRATION_TIME⟩) email k1 k2
      (by rw [hproto]; exact k3)
  refine ⟨by rw [hr], rfl, hgone, ?_⟩
  intro otp' newPassword' t' salt'
  exact resetPassword_no_record rt _ _ t' salt' (Or.inl hgone)

/-- For an email that names nothing on the prototype chain of the store, an
OTP issued at `T` expires: an attempt later than `T` + 5 minutes answers 400
"OTP has expired" whatever the code, leaves the users unchanged and deletes the
record, and every further attempt answers 400 "OTP not found". -/
theorem otp_expiry_plain_key (rt : Runtime) (s s1 s2 : State) (email : String)
    (T : Int) (seed : Nat) (u : User) (otp : Val) (newPassword : String) (t : Int)
    (salt : Nat)
    (k1 : email ≠ "__proto__") (k2 : email ∉ objectPrototypeKeys)
    (k3 : s.otpStore.proto = none ∨ (email ≠ "otp" ∧ email ≠ "expiration"))
    (hu : s.users.find? (fun u => u.email == email) = some u)
    (ht : t > T + 5 * 60 * 1000)
    (h1 : (forgotPassword s email T seed).1 = s1)
    (h2 : (resetPassword rt s1 ⟨email, otp, newPassword⟩ t salt).1 = s2) :
    (resetPassword rt s1 ⟨email, otp, newPassword⟩ t salt).2
      = Response.msg 400 "OTP has expired" ∧
    s2.users = s.users ∧
    otpGet s2.otpStore email = .undefined ∧
    ∀ (otp' : Val) (newPassword' : String) (t' : Int) (salt' : Nat),
      resetPassword rt s2 ⟨email, otp', newPassword'⟩ t' salt'
        = (s2, Response.msg 400 "OTP not found") := by
  have hf := forgotPassword_of_user s email T seed u hu
  have hs1 : s1 = { s with otpStore := (otpSet s.otpStore email
      ⟨randomInt seed 100000 999999, T + OTP_EXPIRATION_TIME⟩) } := by rw [← h1, hf]
  subst hs1
  have hr := resetPassword_expired rt { s with otpStore := (otpSet s.otpStore email
      ⟨randomInt seed 100000 999999, T + OTP_EXPIRATION_TIME⟩) }
    ⟨email, otp, newPassword⟩ t salt
    ⟨randomInt seed 100000 999999, T + OTP_EXPIRATION_TIME⟩
    (otpGet_otpSet _ _ _) (by simpa [OTP_EXPIRATION_TIME] using ht)
  rw [hr] at h2
  subst h2
  have hproto : (otpSet s.otpStore email
      ⟨randomInt seed 100000 999999, T + OTP_EXPIRATION_TIME⟩).proto = s.otpStore.proto := by
    unfold otpSet
    simp [k1]
  have hgone := otpGet_plain_key (otpSet s.otpStore email
      ⟨randomInt seed 100000 999999, T + OTP_EXPIRATION_TIME⟩) email k1 k2
      (by rw [hproto]; exact k3)
  refine ⟨by rw [hr], rfl, hgone, ?_⟩
  intro otp' newPassword' t' salt'
  exact resetPassword_no_record rt _ _ t' salt' (Or.inl hgone)

/-- C8, as amended: on a live record, a submitted code that does not match
answers 400 "Invalid OTP" and leaves the whole state, the OTP store and the
users, unchanged; when a user with the email exists, a following attempt with
the stored code, not later than the expiry, succeeds: it gives the first user
with the email the new hash and runs `delete otpStore[email]`. -/
theorem otp_mismatch_keeps_record (rt : Runtime) (s : State) (body : ResetBody)
    (now : Int) (salt : Nat) (r : OtpRecord)
    (hrec : otpGet s.otpStore body.email = .record r) (hlive : now ≤ r.expiration)
    (hmis : rt.parseInt body.otp ≠ some r.otp) :
    resetPassword rt s body now salt = (s, Response.msg 400 "Invalid OTP") ∧
    ∀ (u : User) (otp' : Val) (newPassword' : String) (t' : Int) (salt' : Nat),
      s.users.find? (fun u => u.email == body.email) = some u →
      rt.parseInt otp' = some r.otp → t' ≤ r.expiration →
      resetPassword rt (resetPassword rt s body now salt).1
          ⟨body.email, otp', newPassword'⟩ t' salt'
        = ({ s with
              users := modifyFirst (fun u => u.email == body.email)
                (fun u => { u with password := rt.bcryptHash newPassword' salt' }) s.users
              otpStore := otpDelete s.otpStore body.email },
            Response.msg 200 "Password reset successfully") := by
  have hm := resetPassword_mismatch rt s body now salt r hrec hlive hmis
  refine ⟨hm, ?_⟩
  intro u otp' newPassword' t' salt' hu hc ht
  rw [hm]
  exact resetPassword_success rt s ⟨body.email, otp', newPassword'⟩ t' salt' r u hrec ht hc hu

/-- C8, witness: Ann first submits 123456 instead of 100005. -/
theorem otp_mismatch_keeps_record_witness :
    resetPassword sampleRuntime issued annWrong 1000 0
      = (issued, Response.msg 400 "Invalid OTP") ∧
    ∀ (u : User) (otp' : Val) (newPassword' : String) (t' : Int) (salt' : Nat),
      issued.users.find? (fun u => u.email == annWrong.email) = some u →
      sampleRuntime.parseInt otp' = some (⟨100005, 300000⟩ : OtpRecord).otp →
      t' ≤ (⟨100005, 300000⟩ : OtpRecord).expiration →
      resetPassword sampleRuntime (resetPassword sampleRuntime issued annWrong 1000 0).1
          ⟨annWrong.email, otp', newPassword'⟩ t' salt'
        = ({ issued with
              users := modifyFirst (fun u => u.email == annWrong.email)
                (fun u => { u with password := sampleRuntime.bcryptHash newPassword' salt' })
                issued.users
              otpStore := otpDelete issued.otpStore annWrong.email },
            Response.msg 200 "Password reset successfully") :=
  otp_mismatch_keeps_record sampleRuntime issued annWrong 1000 0 ⟨100005, 300000⟩
    (by decide) (by decide) (by decide)

/-- C8, counterexample: Ann's account is deleted while her OTP is live. A wrong
code answers 400 "Invalid OTP" and keeps the record, but the following attempt
with the correct code, before the expiry, does not succeed: it answers 404
"User not found". -/
theorem retry_after_user_deleted :
    otpGet orphaned.otpStore annWrong.email = .record ⟨100005, 300000⟩ ∧
    sampleRuntime.parseInt annWrong.otp = some 123456 ∧
    resetPassword sampleRuntime orphaned annWrong 1000 0
      = (orphaned, Response.msg 400 "Invalid OTP") ∧
    sampleRuntime.parseInt annReset.otp = some 100005 ∧
    (2000 : Int) ≤ 300000 ∧
    (resetPassword sampleRuntime (resetPassword sampleRuntime orphaned annWrong 1000 0).1
        annReset 2000 0).2 = Response.msg 404 "User not found" ∧
    (resetPassword sampleRuntime (resetPassword sampleRuntime orphaned annWrong 1000 0).1
        annReset 2000 0).2.status ≠ 200 := by
  have h : resetPassword sampleRuntime orphaned annWrong 1000 0
      = (orphaned, Response.msg 400 "Invalid OTP") :=
    resetPassword_mismatch sampleRuntime orphaned annWrong 1000 0 ⟨100005, 300000⟩
      (by decide) (by decide) (by decide)
  refine ⟨by decide, by decide, h, by decide, by decide, ?_, ?_⟩
  · rw [h]; decide
  · rw [h]; decide

/-- C9, as amended: the users change only when the request reports success,
and then the first user with the email gets the new hash and
`delete otpStore[email]` runs in the same step, which removes the record for
every email but `__proto__`; a request that fails on a live record changes
nothing at all. When the submitted code matches a live record, the request
succeeds if a user with the email exists, and otherwise answers 404
"User not found" with the record retained. -/
theorem reset_atomic (rt : Runtime) (s : State) (body : ResetBody) (now : Int)
    (salt : Nat) :
    ((resetPassword rt s body now salt).2.status = 200 →
      (∃ r u, otpGet s.otpStore body.email = .record r ∧ now ≤ r.expiration ∧
        rt.parseInt body.otp = some r.otp ∧
        s.users.find? (fun u => u.email == body.email) = some u) ∧
      (resetPassword rt s body now salt).1.users
        = modifyFirst (fun u => u.email == body.email)
          (fun u => { u with password := rt.bcryptHash body.newPassword salt }) s.users ∧
      (resetPassword rt s body now salt).1.otpStore = otpDelete s.otpStore body.email ∧
      (body.email ≠ "__proto__" →
        (resetPassword rt s body now salt).1.otpStore.own body.email = none ∧
        ∀ r, otpGet (resetPassword rt s body now salt).1.otpStore body.email ≠ .record r)) ∧
    ((resetPassword rt s body now salt).2.status ≠ 200 →
      (resetPassword rt s body now salt).1.users = s.users ∧
      ∀ r, otpGet s.otpStore body.email = .record r → now ≤ r.expiration →
        (resetPassword rt s body now salt).1 = s) ∧
    (∀ r, otpGet s.otpStore body.email = .record r → now ≤ r.expiration →
      rt.parseInt body.otp = some r.otp →
      (∀ u, s.users.find? (fun u => u.email == body.email) = some u →
        resetPassword rt s body now salt
          = ({ s with
                users := modifyFirst (fun u => u.email == body.email)
                  (fun u => { u with password := rt.bcryptHash body.newPassword salt })
                  s.users
                otpStore := otpDelete s.otpStore body.email },
              Response.msg 200 "Password reset successfully")) ∧
      (s.users.find? (fun u => u.email == body.email) = none →
        resetPassword rt s body now salt = (s, Response.msg 404 "User not found"))) := by
  refine ⟨?_, ?_, ?_⟩
  · intro hok
    cases hrec : otpGet s.otpStore body.email with
    | undefined =>
      rw [resetPassword_no_record rt s body now salt (Or.inl hrec)] at hok
      simp [Response.msg] at hok
    | inherited t =>
      cases t with
      | false =>
        rw [resetPassword_no_record rt s body now salt (Or.inr hrec)] at hok
        simp [Response.msg] at hok
      | true =>
        rw [resetPassword_inherited rt s body now salt hrec] at hok
        simp [Response.msg] at hok
    | record r =>
      by_cases hexp : now > r.expiration
      · rw [resetPassword_expired rt s body now salt r hrec hexp] at hok
        simp [Response.msg] at hok
      · have hlive : now ≤ r.expiration := by omega
        by_cases hm : rt.parseInt body.otp = some r.otp
        · cases hu : s.users.find? (fun u => u.email == body.email) with
          | none =>
            rw [resetPassword_no_user rt s body now salt r hrec hlive hm hu] at hok
            simp [Response.msg] at hok
          | some u =>
            rw [resetPassword_success rt s body now salt r u hrec hlive hm hu]
            exact ⟨⟨r, u, rfl, hlive, hm, rfl⟩, rfl, rfl,
              fun he => otpGet_otpDelete s.otpStore body.email he⟩
        · rw [resetPassword_mismatch rt s body now salt r hrec hlive hm] at hok
          simp [Response.msg] at hok
  · intro hno
    cases hrec : otpGet s.otpStore body.email with
    | undefined =>
      rw [resetPassword_no_record rt s body now salt (Or.inl hrec)]
      exact ⟨rfl, fun _ _ _ => rfl⟩
    | inherited t =>
      cases t with
      | false =>
        rw [resetPassword_no_record rt s body now salt (Or.inr hrec)]
        exact ⟨rfl, fun _ _ _ => rfl⟩
      | true =>
        rw [resetPassword_inherited rt s body now salt hrec]
        exact ⟨rfl, fun _ _ _ => rfl⟩
    | record r =>
      by_cases hexp : now > r.expiration
      · rw [resetPassword_expired rt s body now salt r hrec hexp]
        refine ⟨rfl, fun r2 h2 hl => ?_⟩
        simp only [OtpEntry.record.injEq] at h2
        subst h2
        omega
      · have hlive : now ≤ r.expiration := by omega
        by_cases hm : rt.parseInt body.otp = some r.otp
        · cases hu : s.users.find? (fun u => u.email == body.email) with
          | none =>
            rw [resetPassword_no_user rt s body now salt r hrec hlive hm hu]
            exact ⟨rfl, fun _ _ _ => rfl⟩
          | some u =>
            rw [resetPassword_success rt s body now salt r u hrec hlive hm hu] at hno
            simp [Response.msg] at hno
        · rw [resetPassword_mismatch rt s body now salt r hrec hlive hm]
          exact ⟨rfl, fun _ _ _ => rfl⟩
  · intro r hrec hlive hm
    exact ⟨fun u hu => resetPassword_success rt s body now salt r u hrec hlive hm hu,
      fun hu => resetPassword_no_user rt s body now salt r hrec hlive hm hu⟩

/-- C9, witness: Ann's reset with the code she was sent, one second after the
issue, replaces her password and deletes the record in one step. -/
theorem reset_atomic_witness :
    resetPassword sampleRuntime issued annReset 1000 0
      = ({ issued with
            users := modifyFirst (fun u => u.email == annReset.email)
              (fun u => { u with
                password := sampleRuntime.bcryptHash annReset.newPassword 0 })
              issued.users
            otpStore := otpDelete issued.otpStore annReset.email },
          Response.msg 200 "Password reset successfully") ∧
    otpGet (resetPassword sampleRuntime issued annReset 1000 0).1.otpStore annReset.email
      = .undefined :=
  have h := ((reset_atomic sampleRuntime issued annReset 1000 0).2.2 ⟨100005, 300000⟩
    (by decide) (by decide) (by decide)).1
    ⟨1, "Ann", "ann@example.com", "$2a$10$old", "customer", 0⟩ (by decide)
  ⟨h, by rw [h]; decide⟩

/-- C9, counterexample: Ann's account is deleted while her OTP is live; her
request with the matching code, before the expiry, does not report success: it
answers 404 "User not found" and keeps the record. -/
theorem reset_after_user_deleted :
    (deleteUser sampleRuntime issued "admin" "1").2.status = 200 ∧
    otpGet orphaned.otpStore annReset.email = .record ⟨100005, 300000⟩ ∧
    sampleRuntime.parseInt annReset.otp = some 100005 ∧
    (1000 : Int) ≤ 300000 ∧
    resetPassword sampleRuntime orphaned annReset 1000 0
      = (orphaned, Response.msg 404 "User not found") ∧
    (resetPassword sampleRuntime orphaned annReset 1000 0).2.status ≠ 200 := by
  have h : resetPassword sampleRuntime orphaned annReset 1000 0
      = (orphaned, Response.msg 404 "User not found") :=
    resetPassword_no_user sampleRuntime orphaned annReset 1000 0 ⟨100005, 300000⟩
      (by decide) (by decide) (by decide) (by decide)
  refine ⟨by decide, by decide, by decide, by decide, h, ?_⟩
  rw [h]
  decide

/-- C10: for an email of no user, issue answers 404 "User not found" and
changes nothing; for the email of a user, issue at `now` makes `otpStore[email]`
the one record with the code it returns, a number from 100000 to 999999, and the
expiry `now` + 5 minutes, whatever was stored before, leaves the own records of
other emails and the users as they were, and afterwards a submitted code other
than the new one does not reset the password. -/
theorem forgotPassword_issue (rt : Runtime) (s : State) (email : String) (now : Int)
    (seed : Nat) :
    (s.users.find? (fun u => u.email == email) = none →
      forgotPassword s email now seed = (s, Response.msg 404 "User not found")) ∧
    (∀ u, s.users.find? (fun u => u.email == email) = some u →
      ∃ code : Int, 100000 ≤ code ∧ code ≤ 999999 ∧
        (forgotPassword s email now seed).2.status = 200 ∧
        (forgotPassword s email now seed).2.otp = some code ∧
        otpGet (forgotPassword s email now seed).1.otpStore email
          = .record ⟨code, now + 5 * 60 * 1000⟩ ∧
        (∀ k, k ≠ email →
          (forgotPassword s email now seed).1.otpStore.own k = s.otpStore.own k) ∧
        (email ≠ "__proto__" → ∀ k, k ≠ email →
          otpGet (forgotPassword s email now seed).1.otpStore k = otpGet s.otpStore k) ∧
        (forgotPassword s email now seed).1.users = s.users ∧
        ∀ (otp : Val) (newPassword : String) (t : Int) (salt : Nat),
          rt.parseInt otp ≠ some code →
          (resetPassword rt (forgotPassword s email now seed).1
            ⟨email, otp, newPassword⟩ t salt).2.status = 400 ∧
          (resetPassword rt (forgotPassword s email now seed).1
            ⟨email, otp, newPassword⟩ t salt).1.users = s.users) := by
  constructor
  · intro hu
    unfold forgotPassword
    rw [hu]
  · intro u hu
    have hr := randomInt_range seed 100000 999999 (by norm_num)
    refine ⟨randomInt seed 100000 999999, hr.1, by omega, ?_⟩
    rw [forgotPassword_of_user s email now seed u hu]
    have hrec : otpGet (otpSet s.otpStore email
        ⟨randomInt seed 100000 999999, now + OTP_EXPIRATION_TIME⟩) email
        = .record ⟨randomInt seed 100000 999999, now + OTP_EXPIRATION_TIME⟩ :=
      otpGet_otpSet _ _ _
    refine ⟨rfl, rfl, by simpa [OTP_EXPIRATION_TIME] using hrec, ?_, ?_, rfl, ?_⟩
    · intro k hk
      exact own_otpSet_other _ _ _ k hk
    · intro he k hk
      exact otpGet_otpSet_other _ _ _ he k hk
    · intro otp newPassword t salt hne
      by_cases hexp : t > now + OTP_EXPIRATION_TIME
      · rw [resetPassword_expired rt _ ⟨email, otp, newPassword⟩ t salt _ hrec hexp]
        exact ⟨rfl, rfl⟩
      · rw [resetPassword_mismatch rt _ ⟨email, otp, newPassword⟩ t salt _ hrec
          (by simpa using hexp) hne]
        exact ⟨rfl, rfl⟩

/-- C10, witness: nobody has the email bob@example.com, so nothing is issued;
Ann is issued a code. -/
theorem forgotPassword_issue_witness :
    forgotPassword shop "bob@example.com" 0 5 = (shop, Response.msg 404 "User not found") ∧
    ∃ code : Int, 100000 ≤ code ∧ code ≤ 999999 ∧
      (forgotPassword shop "ann@example.com" 0 5).2.status = 200 ∧
      (forgotPassword shop "ann@example.com" 0 5).2.otp = some code ∧
      otpGet (forgotPassword shop "ann@example.com" 0 5).1.otpStore "ann@example.com"
        = .record ⟨code, 0 + 5 * 60 * 1000⟩ ∧
      (∀ k, k ≠ "ann@example.com" →
        (forgotPassword shop "ann@example.com" 0 5).1.otpStore.own k
          = shop.otpStore.own k) ∧
      ("ann@example.com" ≠ "__proto__" → ∀ k, k ≠ "ann@example.com" →
        otpGet (forgotPassword shop "ann@example.com" 0 5).1.otpStore k
          = otpGet shop.otpStore k) ∧
      (forgotPassword shop "ann@example.com" 0 5).1.users = shop.users ∧
      ∀ (otp : Val) (newPassword : String) (t : Int) (salt : Nat),
        sampleRuntime.parseInt otp ≠ some code →
        (resetPassword sampleRuntime (forgotPassword shop "ann@example.com" 0 5).1
          ⟨"ann@example.com", otp, newPassword⟩ t salt).2.status = 400 ∧
        (resetPassword sampleRuntime (forgotPassword shop "ann@example.com" 0 5).1
          ⟨"ann@example.com", otp, newPassword⟩ t salt).1.users = shop.users :=
  ⟨(forgotPassword_issue sampleRuntime shop "bob@example.com" 0 5).1 (by decide),
    (forgotPassword_issue sampleRuntime shop "ann@example.com" 0 5).2
      ⟨1, "Ann", "ann@example.com", "$2a$10$old", "customer", 0⟩ (by decide)⟩

/-! ## Prices and date ranges -/

theorem newDate_jan5 :
    sampleRuntime.newDate (.str "2024-01-05") = some 1704412800000 := by decide

theorem newDate_dec30 :
    sampleRuntime.newDate (.str "2023-12-30") = some 1703894400000 := by decide

theorem createBooking_stored (rt : Runtime) (s : State) (user_id : Int)
    (body : BookingBody) (now : Int) (laptop : Laptop)
    (hfind : s.laptops.find? (fun l => some l.id == rt.Number body.laptop_id) = some laptop)
    (havail : laptop.available = true) :
    createBooking rt s user_id body now
      = ({ s with
            bookings := s.bookings ++ [⟨(s.bookings.length : Int) + 1, body.laptop_id, user_id,
              body.start_date, body.end_date, .str "confirmed",
              totalPrice rt laptop.daily_price (days rt body.start_date body.end_date), now⟩]
            laptops := modifyFirst (fun l => some l.id == rt.Number body.laptop_id)
              (fun l => { l with available := false }) s.laptops },
          ⟨201, "Booking confirmed", some ⟨(s.bookings.length : Int) + 1, body.laptop_id,
            user_id, body.start_date, body.end_date, .str "confirmed",
            totalPrice rt laptop.daily_price (days rt body.start_date body.end_date), now⟩,
            none, none⟩) := by
  unfold createBooking
  rw [hfind]
  simp [havail]

theorem applyUpdate_fields (rt : Runtime) (laptops : List Laptop) (body : UpdateBody)
    (b : Booking) :
    (applyUpdate rt laptops body b).id = b.id ∧
    (applyUpdate rt laptops body b).laptop_id = b.laptop_id ∧
    (applyUpdate rt laptops body b).user_id = b.user_id ∧
    (applyUpdate rt laptops body b).created_at = b.created_at ∧
    (applyUpdate rt laptops body b).start_date
      = (if truthy body.start_date then body.start_date else b.start_date) ∧
    (applyUpdate rt laptops body b).end_date
      = (if truthy body.end_date then body.end_date else b.end_date) ∧
    (applyUpdate rt laptops body b).status
      = (if truthy body.status then body.status else b.status) := by
  unfold applyUpdate
  simp only
  split <;> (refine ⟨?_, ?_, ?_, ?_, ?_, ?_, ?_⟩ <;> (split_ifs <;> rfl))

theorem applyUpdate_total_price (rt : Runtime) (laptops : List Laptop) (body : UpdateBody)
    (b : Booking) (laptop : Laptop)
    (hlap : laptops.find? (fun l => Val.num l.id == b.laptop_id) = some laptop) :
    (applyUpdate rt laptops body b).total_price
      = totalPrice rt laptop.daily_price
          (days rt (if truthy body.start_date then body.start_date else b.start_date)
            (if truthy body.end_date then body.end_date else b.end_date)) := by
  have hl : ∀ b3 : Booking, b3.laptop_id = b.laptop_id →
      laptops.find? (fun l => Val.num l.id == b3.laptop_id) = some laptop := by
    intro b3 h3
    rw [h3]
    exact hlap
  unfold applyUpdate
  simp only
  rw [hl _ (by split_ifs <;> rfl)]
  simp only
  split_ifs <;> rfl

theorem applyUpdate_no_laptop (rt : Runtime) (laptops : List Laptop) (body : UpdateBody)
    (b : Booking)
    (hlap : laptops.find? (fun l => Val.num l.id == b.laptop_id) = none) :
    (applyUpdate rt laptops body b).total_price = b.total_price := by
  have hl : ∀ b3 : Booking, b3.laptop_id = b.laptop_id →
      laptops.find? (fun l => Val.num l.id == b3.laptop_id) = none := by
    intro b3 h3
    rw [h3]
    exact hlap
  unfold applyUpdate
  simp only
  rw [hl _ (by split_ifs <;> rfl)]
  simp only
  split_ifs <;> rfl

theorem updateBooking_found (rt : Runtime) (s : State) (user_id : Int) (id : String)
    (body : UpdateBody) (booking : Booking)
    (hfind : s.bookings.find?
      (fun b => some b.id == rt.parseInt (.str id) && b.user_id == user_id) = some booking) :
    updateBooking rt s user_id id body
      = ({ s with
            bookings := modifyFirst
              (fun b => some b.id == rt.parseInt (.str id) && b.user_id == user_id)
              (applyUpdate rt s.laptops body) s.bookings },
          ⟨200, "Booking updated successfully", some (applyUpdate rt s.laptops body booking),
            none, none⟩) := by
  unfold updateBooking
  simp only
  rw [hfind]

theorem number_string_one : sampleRuntime.Number (.str "1") = some 1 := by decide

theorem parseInt_string_one : sampleRuntime.parseInt (.str "1") = some 1 := by decide

/-! ## Day counts and prices in the number arithmetic -/

theorem sampleRuntime_roundsMonotone : sampleRuntime.roundsMonotone :=
  fun x y a b hxy hx hy => roundBinary64_mono x y a b hxy hx hy

theorem sampleRuntime_roundsIntegers : sampleRuntime.roundsIntegers :=
  fun n hn => roundBinary64_int n hn

theorem sampleRuntime_exact_int (n : Int) (hn : |n| ≤ 2 ^ 53) :
    sampleRuntime.exact (n : Rat) :=
  roundBinary64_int n hn

theorem sampleRuntime_exact_half (m : Int) (hm : |m| ≤ 2 ^ 53) :
    sampleRuntime.exact ((m : Rat) / 2) := by
  have h := roundBinary64_representable m (-1) hm (by norm_num) (by
    have h1 : |(m : Rat)| ≤ 2 ^ 53 := by exact_mod_cast hm
    have h2 : (0 : Rat) ≤ |(m : Rat)| := abs_nonneg _
    norm_num
    linarith)
  have he : (m : Rat) * 2 ^ (-1 : Int) = (m : Rat) / 2 := by
    rw [zpow_neg_one]
    rfl
  rw [he] at h
  exact h

theorem days_of_dates (rt : Runtime) (start_date end_date : Val) (b e : Int)
    (hb : rt.newDate start_date = some b) (he : rt.newDate end_date = some e) :
    days rt start_date end_date
      = (rt.round ((e : Rat) - (b : Rat))).bind fun difference =>
        (rt.round (difference / (1000 * 60 * 60 * 24))).bind fun quotient =>
        rt.round (quotient + 1) := by
  unfold days
  rw [hb, he]

theorem days_whole (rt : Runtime) (start_date end_date : Val) (b e k : Int)
    (hb : rt.newDate start_date = some b) (he : rt.newDate end_date = some e)
    (hk : e - b = k * (1000 * 60 * 60 * 24))
    (h1 : rt.exact ((e : Rat) - (b : Rat))) (h2 : rt.exact (k : Rat))
    (h3 : rt.exact ((k : Rat) + 1)) :
    days rt start_date end_date = some ((k : Rat) + 1) := by
  rw [days_of_dates rt start_date end_date b e hb he]
  unfold Runtime.exact at h1 h2 h3
  have hq : ((e : Rat) - (b : Rat)) / (1000 * 60 * 60 * 24) = (k : Rat) := by
    have : ((e : Rat) - (b : Rat)) = (k : Rat) * (1000 * 60 * 60 * 24) := by
      exact_mod_cast hk
    rw [this]
    field_simp
  simp only [h1, Option.some_bind, hq, h2, h3]

theorem inclusive_day_count_whole (b e k : Int) (hk : e - b = k * (1000 * 60 * 60 * 24)) :
    inclusive_day_count b e = k + 1 := by
  unfold inclusive_day_count
  rw [hk, Int.mul_ediv_cancel _ (by norm_num)]

theorem days_bounds (rt : Runtime) (start_date end_date : Val) (b e : Int) (d : Rat)
    (hb : rt.newDate start_date = some b) (he : rt.newDate end_date = some e)
    (hmono : rt.roundsMonotone) (hint : rt.roundsIntegers)
    (hd : days rt start_date end_date = some d) :
    (b ≤ e → 1 ≤ d) ∧ (e < b → d ≤ 1) ∧
    (e - b ≤ -(1000 * 60 * 60 * 24) → d ≤ 0) := by
  rw [days_of_dates rt start_date end_date b e hb he] at hd
  cases h1 : rt.round ((e : Rat) - (b : Rat)) with
  | none => rw [h1] at hd; simp at hd
  | some d1 =>
    rw [h1] at hd
    simp only [Option.some_bind] at hd
    cases h2 : rt.round (d1 / (1000 * 60 * 60 * 24)) with
    | none => rw [h2] at hd; simp at hd
    | some d2 =>
      rw [h2] at hd
      simp only [Option.some_bind] at hd
      have r0 : rt.round ((0 : Int) : Rat) = some ((0 : Int) : Rat) := hint 0 (by norm_num)
      have r1 : rt.round ((1 : Int) : Rat) = some ((1 : Int) : Rat) := hint 1 (by norm_num)
      have rm1 : rt.round ((-1 : Int) : Rat) = some ((-1 : Int) : Rat) :=
        hint (-1) (by norm_num)
      have rday : rt.round ((-86400000 : Int) : Rat) = some ((-86400000 : Int) : Rat) :=
        hint (-86400000) (by norm_num)
      simp only [Int.cast_zero, Int.cast_one, Int.cast_neg, Int.cast_ofNat] at r0 r1 rm1 rday
      refine ⟨?_, ?_, ?_⟩
      · intro hle
        have hdiff : (0 : Rat) ≤ (e : Rat) - (b : Rat) := by
          have : (b : Rat) ≤ (e : Rat) := by exact_mod_cast hle
          linarith
        have hd1 : (0 : Rat) ≤ d1 := hmono _ _ _ _ hdiff r0 h1
        have hq : (0 : Rat) ≤ d1 / (1000 * 60 * 60 * 24) := div_nonneg hd1 (by norm_num)
        have hd2 : (0 : Rat) ≤ d2 := hmono _ _ _ _ hq r0 h2
        exact hmono _ _ _ _ (by linarith) r1 hd
      · intro hlt
        have hdiff : (e : Rat) - (b : Rat) ≤ 0 := by
          have : (e : Rat) < (b : Rat) := by exact_mod_cast hlt
          linarith
        have hd1 : d1 ≤ 0 := hmono _ _ _ _ hdiff h1 r0
        have hq : d1 / (1000 * 60 * 60 * 24) ≤ 0 :=
          div_nonpos_of_nonpos_of_nonneg hd1 (by norm_num)
        have hd2 : d2 ≤ 0 := hmono _ _ _ _ hq h2 r0
        exact hmono _ _ _ _ (by linarith) hd r1
      · intro hday
        have hdiff : (e : Rat) - (b : Rat) ≤ -86400000 := by
          have : ((e - b : Int) : Rat) ≤ ((-(1000 * 60 * 60 * 24) : Int) : Rat) := by
            exact_mod_cast hday
          push_cast at this
          linarith
        have hd1 : d1 ≤ -86400000 := hmono _ _ _ _ hdiff h1 rday
        have hq : d1 / (1000 * 60 * 60 * 24) ≤ -1 := by
          rw [div_le_iff₀ (by norm_num)]
          linarith
        have hd2 : d2 ≤ -1 := hmono _ _ _ _ hq h2 rm1
        exact hmono _ _ _ _ (by linarith) hd r0

theorem totalPrice_bounds (rt : Runtime) (p d x : Rat) (hmono : rt.roundsMonotone)
    (hint : rt.roundsIntegers) (hp : 0 ≤ p) (hx : totalPrice rt p (some d) = some x) :
    (1 ≤ d → rt.exact p → p ≤ x) ∧ (d ≤ 1 → rt.exact p → x ≤ p) ∧
    (d ≤ 0 → x ≤ 0) := by
  unfold totalPrice at hx
  simp only [Option.some_bind] at hx
  have r0 : rt.round ((0 : Int) : Rat) = some ((0 : Int) : Rat) := hint 0 (by norm_num)
  simp only [Int.cast_zero] at r0
  refine ⟨?_, ?_, ?_⟩
  · intro hd hpx
    exact hmono _ _ _ _ (by nlinarith) hpx hx
  · intro hd hpx
    exact hmono _ _ _ _ (by nlinarith) hx hpx
  · intro hd
    exact hmono _ _ _ _ (by nlinarith) hx r0

theorem sample_days_whole (start_date end_date : Val) (b e k : Int)
    (hb : sampleRuntime.newDate start_date = some b)
    (he : sampleRuntime.newDate end_date = some e)
    (hk : e - b = k * (1000 * 60 * 60 * 24))
    (h1 : |e - b| ≤ 2 ^ 53) (h2 : |k| ≤ 2 ^ 53) (h3 : |k + 1| ≤ 2 ^ 53) :
    days sampleRuntime start_date end_date = some ((k : Rat) + 1) := by
  apply days_whole sampleRuntime start_date end_date b e k hb he hk
  · have := sampleRuntime_exact_int (e - b) h1
    simpa using this
  · exact sampleRuntime_exact_int k h2
  · have := sampleRuntime_exact_int (k + 1) h3
    simpa using this

theorem sample_totalPrice_int (p d : Int) (h : |p * d| ≤ 2 ^ 53) :
    totalPrice sampleRuntime (p : Rat) (some (d : Rat)) = some ((p : Rat) * (d : Rat)) := by
  unfold totalPrice
  simp only [Option.some_bind]
  have := sampleRuntime_exact_int (p * d) h
  simpa [Runtime.exact] using this

theorem days_jan1_jan3 :
    days sampleRuntime (.str "2024-01-01") (.str "2024-01-03") = some 3 := by
  have h := sample_days_whole _ _ _ _ 2 newDate_jan1 newDate_jan3 (by norm_num)
    (by norm_num) (by norm_num) (by norm_num)
  norm_num at h
  exact h

theorem days_jan1_jan5 :
    days sampleRuntime (.str "2024-01-01") (.str "2024-01-05") = some 5 := by
  have h := sample_days_whole _ _ _ _ 4 newDate_jan1 newDate_jan5 (by norm_num)
    (by norm_num) (by norm_num) (by norm_num)
  norm_num at h
  exact h

theorem days_jan3_jan1 :
    days sampleRuntime (.str "2024-01-03") (.str "2024-01-01") = some (-1) := by
  have h := sample_days_whole _ _ _ _ (-2) newDate_jan3 newDate_jan1 (by norm_num)
    (by norm_num) (by norm_num) (by norm_num)
  norm_num at h
  exact h

theorem days_jan1_dec30 :
    days sampleRuntime (.str "2024-01-01") (.str "2023-12-30") = some (-1) := by
  have h := sample_days_whole _ _ _ _ (-2) newDate_jan1 newDate_dec30 (by norm_num)
    (by norm_num) (by norm_num) (by norm_num)
  norm_num at h
  exact h

theorem price_20_times_3 : totalPrice sampleRuntime 20 (some 3) = some 60 := by
  have h := sample_totalPrice_int 20 3 (by norm_num)
  norm_num at h
  exact h

theorem price_20_times_5 : totalPrice sampleRuntime 20 (some 5) = some 100 := by
  have h := sample_totalPrice_int 20 5 (by norm_num)
  norm_num at h
  exact h

theorem price_20_times_minus_1 : totalPrice sampleRuntime 20 (some (-1)) = some (-20) := by
  have h := sample_totalPrice_int 20 (-1) (by norm_num)
  norm_num at h
  exact h

theorem days_midnight_noon :
    days sampleRuntime (.str "2024-01-01T00:00:00.000Z") (.str "2024-01-01T12:00:00.000Z")
      = some (3 / 2) := by
  rw [days_of_dates sampleRuntime _ _ _ _ newDate_midnight newDate_noon]
  have h1 : sampleRuntime.round (((1704110400000 : Int) : Rat) - ((1704067200000 : Int) : Rat))
      = some 43200000 := by
    have := sampleRuntime_exact_int 43200000 (by norm_num)
    unfold Runtime.exact at this
    norm_num at this ⊢
    exact this
  have h2 : sampleRuntime.round ((43200000 : Rat) / (1000 * 60 * 60 * 24)) = some (1 / 2) := by
    have := sampleRuntime_exact_half 1 (by norm_num)
    unfold Runtime.exact at this
    norm_num at this ⊢
    exact this
  have h3 : sampleRuntime.round ((1 / 2 : Rat) + 1) = some (3 / 2) := by
    have := sampleRuntime_exact_half 3 (by norm_num)
    unfold Runtime.exact at this
    norm_num at this ⊢
    exact this
  simp only [h1, Option.some_bind, h2, h3]

theorem price_20_times_3_halves : totalPrice sampleRuntime 20 (some (3 / 2)) = some 30 := by
  unfold totalPrice
  simp only [Option.some_bind]
  have := sampleRuntime_exact_int 30 (by norm_num)
  unfold Runtime.exact at this
  norm_num at this ⊢
  exact this

/-! ### Inexact steps

Two computations in which a step is not exact, so that the stored price is not
the rational product. -/

/-- The product of the doubles 0.1 and 3 is the double 0.30000000000000004,
not the double nearest to 0.3. -/
theorem price_tenth_times_3 :
    totalPrice sampleRuntime (3602879701896397 / 36028797018963968) (some 3)
      = some (1351079888211149 / 4503599627370496) := by
  unfold totalPrice
  simp only [Option.some_bind]
  show roundBinary64 _ = _
  have h := roundBinary64_of_binade
    ((3602879701896397 / 36028797018963968 : Rat) * 3) (-54) 5404319552844596
    (by norm_num) (by norm_num) (by norm_num)
    (by
      rw [roundHalfEven_of_floor _ 5404319552844595 (by norm_num) (by norm_num)]
      norm_num)
    (by norm_num)
  rw [h]
  norm_num

/-- From midnight to eight in the morning the day count is the double
1.3333333333333333: the quotient 1/3 is rounded, and so is the sum. -/
theorem days_midnight_eight :
    days sampleRuntime (.str "2024-01-01T00:00:00.000Z") (.str "2024-01-01T08:00:00.000Z")
      = some (6004799503160661 / 4503599627370496) := by
  rw [days_of_dates sampleRuntime _ _ _ _ newDate_midnight newDate_eight]
  have h1 : sampleRuntime.round (((1704096000000 : Int) : Rat) - ((1704067200000 : Int) : Rat))
      = some 28800000 := by
    have := sampleRuntime_exact_int 28800000 (by norm_num)
    unfold Runtime.exact at this
    norm_num at this ⊢
    exact this
  have h2 : sampleRuntime.round ((28800000 : Rat) / (1000 * 60 * 60 * 24))
      = some (6004799503160661 / 18014398509481984) := by
    show roundBinary64 _ = _
    have h := roundBinary64_of_binade ((28800000 : Rat) / (1000 * 60 * 60 * 24)) (-54)
      6004799503160661 (by norm_num) (by norm_num) (by norm_num)
      (by
        rw [roundHalfEven_of_floor _ 6004799503160661 (by norm_num) (by norm_num)]
        norm_num)
      (by norm_num)
    rw [h]
    norm_num
  have h3 : sampleRuntime.round ((6004799503160661 / 18014398509481984 : Rat) + 1)
      = some (6004799503160661 / 4503599627370496) := by
    show roundBinary64 _ = _
    have h := roundBinary64_of_binade ((6004799503160661 / 18014398509481984 : Rat) + 1) (-52)
      6004799503160661 (by norm_num) (by norm_num) (by norm_num)
      (by
        rw [roundHalfEven_of_floor _ 6004799503160661 (by norm_num) (by norm_num)]
        norm_num)
      (by norm_num)
    rw [h]
    norm_num
  simp only [h1, Option.some_bind, h2, h3]

/-- The product of 20 and the double 1.3333333333333333 is the double
26.666666666666664, below the double nearest to 80/3. -/
theorem price_20_times_4_thirds :
    totalPrice sampleRuntime 20 (some (6004799503160661 / 4503599627370496))
      = some (3752999689475413 / 140737488355328) := by
  unfold totalPrice
  simp only [Option.some_bind]
  show roundBinary64 _ = _
  have h := roundBinary64_of_binade
    ((20 : Rat) * (6004799503160661 / 4503599627370496)) (-48) 7505999378950826
    (by norm_num) (by norm_num) (by norm_num)
    (by
      rw [roundHalfEven_of_floor _ 7505999378950826 (by norm_num) (by norm_num)]
      norm_num)
    (by norm_num)
  rw [h]
  norm_num

/-- Booking laptop 1, at 20 a day, from midnight to eight in the morning stores
the double 26.666666666666664, which is not 80/3. -/
theorem createBooking_eight_hours :
    (createBooking sampleRuntime shop 7 eightHourBody 0).1.bookings.map
      (fun b => b.total_price) = [some (3752999689475413 / 140737488355328)] ∧
    (3752999689475413 / 140737488355328 : Rat) ≠ 80 / 3 := by
  refine ⟨?_, by norm_num⟩
  simp [createBooking, shop, eightHourBody, Runtime.Number, modifyFirst, days_midnight_eight,
    price_20_times_4_thirds]

/-! ## The price of a booking -/

/-- C2, as amended: on an available laptop and two valid dates, create stores
and returns a booking whose price is daily_price * ((end - start) / 86400000
+ 1) as the number arithmetic evaluates it, the difference, the quotient, the
sum and the product each rounded, with no floor; when the dates are a whole
number k of days apart and the difference, k, k + 1 and daily_price * (k + 1)
are numbers of the runtime, that is exactly the daily price times the inclusive
day count. -/
theorem createBooking_total_price (rt : Runtime) (s : State) (user_id : Int)
    (body : BookingBody) (now : Int) (laptop : Laptop) (b e : Int)
    (hfind : s.laptops.find? (fun l => some l.id == rt.Number body.laptop_id) = some laptop)
    (havail : laptop.available = true)
    (hb : rt.newDate body.start_date = some b) (he : rt.newDate body.end_date = some e) :
    ∃ booking : Booking,
      (createBooking rt s user_id body now).2.booking = some booking ∧
      (createBooking rt s user_id body now).1.bookings = s.bookings ++ [booking] ∧
      booking.total_price
        = ((rt.round ((e : Rat) - (b : Rat))).bind fun difference =>
            (rt.round (difference / (1000 * 60 * 60 * 24))).bind fun quotient =>
            rt.round (quotient + 1)).bind (fun d => rt.round (laptop.daily_price * d)) ∧
      (∀ k : Int, e - b = k * (1000 * 60 * 60 * 24) →
        rt.exact ((e : Rat) - (b : Rat)) → rt.exact (k : Rat) → rt.exact ((k : Rat) + 1) →
        rt.exact (laptop.daily_price * ((k : Rat) + 1)) →
        booking.total_price
          = some (laptop.daily_price * (inclusive_day_count b e : Rat))) := by
  rw [createBooking_stored rt s user_id body now laptop hfind havail]
  refine ⟨_, rfl, rfl, ?_, ?_⟩
  · show totalPrice rt laptop.daily_price (days rt body.start_date body.end_date) = _
    rw [days_of_dates rt _ _ b e hb he]
    rfl
  · intro k hk h1 h2 h3 h4
    show totalPrice rt laptop.daily_price (days rt body.start_date body.end_date) = _
    rw [days_whole rt _ _ b e k hb he hk h1 h2 h3, inclusive_day_count_whole b e k hk]
    unfold totalPrice
    simp only [Option.some_bind]
    unfold Runtime.exact at h4
    rw [h4]
    push_cast
    rfl

/-- C2, witness: daily price 20, 2024-01-01 to 2024-01-03, two days apart and
three days inclusive, price 60. -/
theorem createBooking_total_price_witness :
    ∃ booking : Booking,
      (createBooking sampleRuntime shop 7 numberIdBody 0).2.booking = some booking ∧
      (createBooking sampleRuntime shop 7 numberIdBody 0).1.bookings
        = shop.bookings ++ [booking] ∧
      inclusive_day_count 1704067200000 1704240000000 = 3 ∧
      booking.total_price
        = some ((20 : Rat) * (inclusive_day_count 1704067200000 1704240000000 : Rat)) ∧
      booking.total_price = some 60 := by
  obtain ⟨booking, h1, h2, _, h4⟩ :=
    createBooking_total_price sampleRuntime shop 7 numberIdBody 0
      ⟨1, .str "Dell", .str "XPS", .str "i7", .num 16, .num 512, true, 20, .undefined⟩
      1704067200000 1704240000000 (by decide) rfl newDate_jan1 newDate_jan3
  have h5 := h4 2 (by norm_num)
    (by have := sampleRuntime_exact_int 172800000 (by norm_num)
        unfold Runtime.exact at this ⊢
        norm_num at this ⊢
        exact this)
    (sampleRuntime_exact_int 2 (by norm_num))
    (by have := sampleRuntime_exact_int 3 (by norm_num)
        unfold Runtime.exact at this ⊢
        norm_num at this ⊢
        exact this)
    (by have := sampleRuntime_exact_int 60 (by norm_num)
        unfold Runtime.exact at this ⊢
        norm_num at this ⊢
        exact this)
  have hc : inclusive_day_count 1704067200000 1704240000000 = 3 := by decide
  refine ⟨booking, h1, h2, hc, h5, ?_⟩
  rw [h5, hc]
  norm_num

/-- The example of the spec: the stored price is 60. -/
theorem createBooking_sixty :
    (createBooking sampleRuntime shop 7 numberIdBody 0).1.bookings.map
      (fun b => b.total_price) = [some 60] := by
  simp [createBooking, shop, numberIdBody, Runtime.Number, modifyFirst, days_jan1_jan3,
    price_20_times_3]

/-- C2, counterexample: from midnight to noon of one day the floor of the
difference in days is 0, so the claimed price is 20 * (0 + 1) = 20, but create
stores 20 * 1.5 = 30; every step of this computation is exact in doubles. -/
theorem createBooking_half_day :
    sampleRuntime.newDate halfDayBody.start_date = some 1704067200000 ∧
    sampleRuntime.newDate halfDayBody.end_date = some 1704110400000 ∧
    inclusive_day_count 1704067200000 1704110400000 = 1 ∧
    (createBooking sampleRuntime shop 7 halfDayBody 0).1.bookings.map
      (fun b => b.total_price) = [some 30] ∧
    (createBooking sampleRuntime shop 7 halfDayBody 0).2.booking.map
      (fun b => b.total_price) = some (some 30) ∧
    (30 : Rat) ≠ 20 * (inclusive_day_count 1704067200000 1704110400000 : Rat) := by
  refine ⟨by decide, by decide, by decide, ?_, ?_, ?_⟩
  · simp [createBooking, shop, halfDayBody, Runtime.Number, modifyFirst, days_midnight_noon,
      price_20_times_3_halves]
  · simp [createBooking, shop, halfDayBody, Runtime.Number, modifyFirst, days_midnight_noon,
      price_20_times_3_halves]
  · have h : inclusive_day_count 1704067200000 1704110400000 = 1 := by decide
    rw [h]
    norm_num

/-- C11, at the failing input: user 7 books laptop 1 at 20 a day with the id
sent as the string "1" (2024-01-01 to 2024-01-03, price 60) and then moves the
end date to 2024-01-05. Update answers 200 and stores the new date, but its
lookup `l.id === booking.laptop_id` finds no laptop and the price stays 60;
create computes 100 for these dates on this laptop. -/
theorem update_keeps_stale_price :
    afterStringCreate.bookings.map (fun b => (b.laptop_id, b.end_date, b.total_price))
      = [(.str "1", .str "2024-01-03", some 60)] ∧
    (updateBooking sampleRuntime afterStringCreate 7 "1" extendBody).2.status = 200 ∧
    (updateBooking sampleRuntime afterStringCreate 7 "1" extendBody).1.bookings.map
        (fun b => (b.start_date, b.end_date, b.total_price))
      = [(.str "2024-01-01", .str "2024-01-05", some 60)] ∧
    totalPrice sampleRuntime 20 (days sampleRuntime (.str "2024-01-01") (.str "2024-01-05"))
      = some 100 := by
  refine ⟨?_, by decide, ?_, ?_⟩
  · simp [afterStringCreate, createBooking, shop, stringIdBody, number_string_one,
      modifyFirst, days_jan1_jan3, price_20_times_3]
  · simp [updateBooking, applyUpdate, extendBody, truthy, afterStringCreate, createBooking,
      shop, stringIdBody, number_string_one, parseInt_string_one, modifyFirst,
      days_jan1_jan3, price_20_times_3]
  · rw [days_jan1_jan5, price_20_times_5]

/-! ## Date ranges -/

/-- C12, as amended: update does not check the date range. For every booking
of the caller, update answers 200 and stores the dates the request gives. When
the booking's laptop is found, it stores the price daily_price * ((end - start)
/ 86400000 + 1) as the number arithmetic evaluates it; for valid dates with the
end before the start and a daily price that is not negative, a stored finite
price is at most the daily price, and zero or negative when the end is a day or
more before the start (rounding being monotone and exact on integers). -/
theorem updateBooking_inverted (rt : Runtime) (s : State) (user_id : Int) (id : String)
    (body : UpdateBody) (booking : Booking)
    (hfind : s.bookings.find?
      (fun b => some b.id == rt.parseInt (.str id) && b.user_id == user_id) = some booking) :
    (updateBooking rt s user_id id body).2.status = 200 ∧
    (updateBooking rt s user_id id body).2.booking
      = some (applyUpdate rt s.laptops body booking) ∧
    (updateBooking rt s user_id id body).1.bookings
      = modifyFirst (fun b => some b.id == rt.parseInt (.str id) && b.user_id == user_id)
          (applyUpdate rt s.laptops body) s.bookings ∧
    (applyUpdate rt s.laptops body booking).start_date
      = (if truthy body.start_date then body.start_date else booking.start_date) ∧
    (applyUpdate rt s.laptops body booking).end_date
      = (if truthy body.end_date then body.end_date else booking.end_date) ∧
    ∀ laptop : Laptop,
      s.laptops.find? (fun l => Val.num l.id == booking.laptop_id) = some laptop →
      (applyUpdate rt s.laptops body booking).total_price
        = totalPrice rt laptop.daily_price
            (days rt (if truthy body.start_date then body.start_date else booking.start_date)
              (if truthy body.end_date then body.end_date else booking.end_date)) ∧
      ∀ (b e : Int) (x : Rat),
        rt.newDate (if truthy body.start_date then body.start_date
          else booking.start_date) = some b →
        rt.newDate (if truthy body.end_date then body.end_date
          else booking.end_date) = some e →
        e < b → rt.roundsMonotone → rt.roundsIntegers → 0 ≤ laptop.daily_price →
        (applyUpdate rt s.laptops body booking).total_price = some x →
        (rt.exact laptop.daily_price → x ≤ laptop.daily_price) ∧
        (e - b ≤ -(1000 * 60 * 60 * 24) → x ≤ 0) := by
  rw [updateBooking_found rt s user_id id body booking hfind]
  have hf := applyUpdate_fields rt s.laptops body booking
  refine ⟨rfl, rfl, rfl, hf.2.2.2.2.1, hf.2.2.2.2.2.1, ?_⟩
  intro laptop hlap
  have hprice := applyUpdate_total_price rt s.laptops body booking laptop hlap
  refine ⟨hprice, ?_⟩
  intro b e x hb he hinv hmono hint hp hx
  rw [hprice] at hx
  cases hd : days rt (if truthy body.start_date then body.start_date else booking.start_date)
      (if truthy body.end_date then body.end_date else booking.end_date) with
  | none => rw [hd] at hx; simp [totalPrice] at hx
  | some d =>
    rw [hd] at hx
    have hdb := days_bounds rt _ _ b e d hb he hmono hint hd
    have hpb := totalPrice_bounds rt laptop.daily_price d x hmono hint hp hx
    exact ⟨fun hex => hpb.2.1 (hdb.2.1 hinv) hex, fun hday => hpb.2.2 (hdb.2.2 hday)⟩

/-- C12, witness: user 7 moves the end of booking 1 (from 2024-01-01, laptop 1
at 20 a day) to 2023-12-30; the stored price is -20. -/
theorem updateBooking_inverted_witness :
    (updateBooking sampleRuntime shopBooked 7 "1" invertBody).2.status = 200 ∧
    (updateBooking sampleRuntime shopBooked 7 "1" invertBody).1.bookings.map
        (fun b => (b.start_date, b.end_date, b.total_price))
      = [(.str "2024-01-01", .str "2023-12-30", some (-20))] ∧
    ((-20 : Rat) ≤ 20 ∧ (-20 : Rat) ≤ 0) := by
  have h := updateBooking_inverted sampleRuntime shopBooked 7 "1" invertBody
    ⟨1, .num 1, 7, .str "2024-01-01", .str "2024-01-03", .str "confirmed", some 60, 0⟩
    (by decide)
  obtain ⟨h1, _, h3, _, _, h6⟩ := h
  obtain ⟨hprice, hbound⟩ := h6
    ⟨1, .str "Dell", .str "XPS", .str "i7", .num 16, .num 512, false, 20, .undefined⟩
    (by decide)
  have hx : (applyUpdate sampleRuntime shopBooked.laptops invertBody
      ⟨1, .num 1, 7, .str "2024-01-01", .str "2024-01-03", .str "confirmed", some 60,
        0⟩).total_price = some (-20) := by
    rw [hprice]
    simp [invertBody, truthy, days_jan1_dec30, price_20_times_minus_1]
  have hb := hbound 1704067200000 1703894400000 (-20) (by decide) (by decide) (by decide)
    sampleRuntime_roundsMonotone sampleRuntime_roundsIntegers (by norm_num) hx
  refine ⟨h1, ?_, hb.1 (by
    have := sampleRuntime_exact_int 20 (by norm_num)
    unfold Runtime.exact at this ⊢
    norm_num at this ⊢
    exact this), hb.2 (by norm_num)⟩
  rw [h3]
  simp [shopBooked, modifyFirst, parseInt_string_one, applyUpdate, invertBody, truthy,
    days_jan1_dec30, price_20_times_minus_1]

/-- C12, counterexample: the end of booking 1 is moved to 2023-12-30, two days
before its start 2024-01-01; update answers 200 and the stored booking has the
inverted range and the price -20. -/
theorem update_stores_inverted_range :
    sampleRuntime.newDate (.str "2024-01-01") = some 1704067200000 ∧
    sampleRuntime.newDate invertBody.end_date = some 1703894400000 ∧
    (updateBooking sampleRuntime shopBooked 7 "1" invertBody).2.status = 200 ∧
    (updateBooking sampleRuntime shopBooked 7 "1" invertBody).1.bookings.map
        (fun b => (b.start_date, b.end_date, b.total_price))
      = [(.str "2024-01-01", .str "2023-12-30", some (-20))] ∧
    (updateBooking sampleRuntime shopBooked 7 "1" invertBody).1.bookings
      ≠ shopBooked.bookings := by
  have hb : (updateBooking sampleRuntime shopBooked 7 "1" invertBody).1.bookings.map
        (fun b => (b.start_date, b.end_date, b.total_price))
      = [(.str "2024-01-01", .str "2023-12-30", some (-20))] := by
    simp [updateBooking, applyUpdate, invertBody, truthy, shopBooked, parseInt_string_one,
      modifyFirst, days_jan1_dec30, price_20_times_minus_1]
  refine ⟨by decide, by decide, by decide, hb, ?_⟩
  intro h
  rw [h] at hb
  revert hb
  decide

/-- C14, as amended: create does not check the date range: whenever it
succeeds it stores the dates as the request gives them, and the price
daily_price * ((end - start) / 86400000 + 1) as the number arithmetic evaluates
it. When both dates are valid and the end is not before the start, the day
count is at least 1 and, for a daily price that is not negative, a stored
finite price is at least the daily price (rounding being monotone and exact on
integers). -/
theorem createBooking_day_count (rt : Runtime) (s : State) (user_id : Int)
    (body : BookingBody) (now : Int) (laptop : Laptop)
    (hfind : s.laptops.find? (fun l => some l.id == rt.Number body.laptop_id) = some laptop)
    (havail : laptop.available = true) :
    ∃ booking : Booking,
      (createBooking rt s user_id body now).2.status = 201 ∧
      (createBooking rt s user_id body now).2.booking = some booking ∧
      (createBooking rt s user_id body now).1.bookings = s.bookings ++ [booking] ∧
      booking.start_date = body.start_date ∧ booking.end_date = body.end_date ∧
      booking.total_price
        = totalPrice rt laptop.daily_price (days rt body.start_date body.end_date) ∧
      ∀ (b e : Int), rt.newDate body.start_date = some b →
        rt.newDate body.end_date = some e → b ≤ e →
        rt.roundsMonotone → rt.roundsIntegers →
        (∀ d, days rt body.start_date body.end_date = some d → 1 ≤ d) ∧
        (0 ≤ laptop.daily_price → rt.exact laptop.daily_price →
          ∀ x, booking.total_price = some x → laptop.daily_price ≤ x) := by
  rw [createBooking_stored rt s user_id body now laptop hfind havail]
  refine ⟨_, rfl, rfl, rfl, rfl, rfl, rfl, ?_⟩
  intro b e hb he hle hmono hint
  refine ⟨fun d hd => (days_bounds rt _ _ b e d hb he hmono hint hd).1 hle, ?_⟩
  intro hp hex x hx
  change totalPrice rt laptop.daily_price (days rt body.start_date body.end_date) = some x
    at hx
  cases hd : days rt body.start_date body.end_date with
  | none => rw [hd] at hx; simp [totalPrice] at hx
  | some d =>
    rw [hd] at hx
    have hdb := (days_bounds rt _ _ b e d hb he hmono hint hd).1 hle
    exact (totalPrice_bounds rt laptop.daily_price d x hmono hint hp hx).1 hdb hex

/-- C14, witness: laptop 1 at 20 a day from 2024-01-01 to 2024-01-03: the day
count is 3 and the price 60. -/
theorem createBooking_day_count_witness :
    ∃ booking : Booking,
      (createBooking sampleRuntime shop 7 numberIdBody 0).2.status = 201 ∧
      (createBooking sampleRuntime shop 7 numberIdBody 0).1.bookings
        = shop.bookings ++ [booking] ∧
      booking.start_date = Val.str "2024-01-01" ∧ booking.end_date = Val.str "2024-01-03" ∧
      booking.total_price = some 60 ∧
      days sampleRuntime numberIdBody.start_date numberIdBody.end_date = some 3 ∧
      (1 : Rat) ≤ 3 ∧ (20 : Rat) ≤ 60 := by
  obtain ⟨booking, h1, _, h3, h4, h5, h6, h7⟩ :=
    createBooking_day_count sampleRuntime shop 7 numberIdBody 0
      ⟨1, .str "Dell", .str "XPS", .str "i7", .num 16, .num 512, true, 20, .undefined⟩
      (by decide) rfl
  have hd : days sampleRuntime numberIdBody.start_date numberIdBody.end_date = some 3 :=
    days_jan1_jan3
  have hx : booking.total_price = some 60 := by
    rw [h6, hd]
    exact price_20_times_3
  have hb := h7 1704067200000 1704240000000 newDate_jan1 newDate_jan3 (by decide)
    sampleRuntime_roundsMonotone sampleRuntime_roundsIntegers
  refine ⟨booking, h1, h3, h4, h5, hx, hd, hb.1 3 hd, ?_⟩
  exact hb.2 (by norm_num) (by
    have := sampleRuntime_exact_int 20 (by norm_num)
    unfold Runtime.exact at this ⊢
    norm_num at this ⊢
    exact this) 60 hx

/-- C14, counterexample: create accepts a request from 2024-01-03 back to
2024-01-01 on the available laptop 1 at 20 a day: it answers 201 and stores the
inverted range with the day count -1 and the price -20. -/
theorem create_stores_inverted_range :
    sampleRuntime.newDate invertedBody.start_date = some 1704240000000 ∧
    sampleRuntime.newDate invertedBody.end_date = some 1704067200000 ∧
    (createBooking sampleRuntime shop 7 invertedBody 0).2.status = 201 ∧
    days sampleRuntime invertedBody.start_date invertedBody.end_date = some (-1) ∧
    (createBooking sampleRuntime shop 7 invertedBody 0).1.bookings.map
        (fun b => (b.start_date, b.end_date, b.total_price))
      = [(.str "2024-01-03", .str "2024-01-01", some (-20))] := by
  refine ⟨by decide, by decide, by decide, days_jan3_jan1, ?_⟩
  simp [createBooking, shop, invertedBody, Runtime.Number, modifyFirst, days_jan3_jan1,
    price_20_times_minus_1]

/-! ## What the handlers do to the bookings collection -/

theorem length_modifyFirst {α : Type} (p : α → Bool) (f : α → α) (l : List α) :
    (modifyFirst p f l).length = l.length := by
  induction l with
  | nil => rfl
  | cons x xs ih =>
    by_cases hx : p x = true
    · simp [modifyFirst, hx]
    · simp [modifyFirst, hx, ih]

theorem map_modifyFirst {α β : Type} (p : α → Bool) (f : α → α) (key : α → β)
    (hf : ∀ x, key (f x) = key x) (l : List α) :
    (modifyFirst p f l).map key = l.map key := by
  induction l with
  | nil => rfl
  | cons x xs ih =>
    by_cases hx : p x = true
    · simp [modifyFirst, hx, hf]
    · simp [modifyFirst, hx, ih]

theorem mem_modifyFirst {α : Type} (p : α → Bool) (f : α → α) (l : List α) (y : α)
    (h : y ∈ modifyFirst p f l) : y ∈ l ∨ ∃ x ∈ l, y = f x := by
  induction l with
  | nil => simp [modifyFirst] at h
  | cons x xs ih =>
    by_cases hx : p x = true
    · rw [modifyFirst, if_pos hx, List.mem_cons] at h
      rcases h with h1 | h1
      · exact Or.inr ⟨x, List.mem_cons_self _ _, h1⟩
      · exact Or.inl (List.mem_cons_of_mem _ h1)
    · rw [modifyFirst, if_neg hx, List.mem_cons] at h
      rcases h with h1 | h1
      · exact Or.inl (h1 ▸ List.mem_cons_self _ _)
      · rcases ih h1 with h2 | ⟨z, hz, hy⟩
        · exact Or.inl (List.mem_cons_of_mem _ h2)
        · exact Or.inr ⟨z, List.mem_cons_of_mem _ hz, hy⟩

theorem getElem_modifyFirst {α : Type} (p : α → Bool) (f : α → α) (l : List α) (i : Nat) :
    (modifyFirst p f l)[i]? = l[i]? ∨ (modifyFirst p f l)[i]? = (l[i]?).map f := by
  induction l generalizing i with
  | nil => exact Or.inl rfl
  | cons x xs ih =>
    by_cases hx : p x = true
    · cases i with
      | zero => right; simp [modifyFirst, hx]
      | succ j => left; simp [modifyFirst, hx]
    · cases i with
      | zero => left; simp [modifyFirst, hx]
      | succ j =>
        rcases ih j with h | h
        · left; simpa [modifyFirst, hx] using h
        · right; simpa [modifyFirst, hx] using h

theorem createBooking_bookings (rt : Runtime) (s : State) (user_id : Int)
    (body : BookingBody) (now : Int) :
    (createBooking rt s user_id body now).1.bookings = s.bookings ∨
    ∃ b : Booking, b.status = Val.str "confirmed" ∧ b.id = (s.bookings.length : Int) + 1 ∧
      (createBooking rt s user_id body now).2.booking = some b ∧
      (createBooking rt s user_id body now).1.bookings = s.bookings ++ [b] := by
  cases hfind : s.laptops.find? (fun l => some l.id == rt.Number body.laptop_id) with
  | none => left; unfold createBooking; rw [hfind]
  | some laptop =>
    cases hav : laptop.available with
    | false => left; unfold createBooking; rw [hfind]; simp [hav]
    | true =>
      right
      rw [createBooking_stored rt s user_id body now laptop hfind hav]
      exact ⟨_, rfl, rfl, rfl, rfl⟩

theorem cancelBooking_bookings (rt : Runtime) (s : State) (user_id : Int) (id : String)
    (now : Int) :
    (cancelBooking rt s user_id id now).1.bookings = s.bookings ∨
    (cancelBooking rt s user_id id now).1.bookings
      = modifyFirst (fun b => some b.id == rt.parseInt (.str id) && b.user_id == user_id)
          (fun b => { b with status := .str "cancelled" }) s.bookings := by
  unfold cancelBooking
  simp only
  cases hfind : s.bookings.find?
      (fun b => some b.id == rt.parseInt (.str id) && b.user_id == user_id) with
  | none => left; rfl
  | some booking =>
    cases hlate : tooLate now booking.created_at with
    | true => left; simp [hlate]
    | false => right; simp [hlate]

theorem updateBooking_bookings (rt : Runtime) (s : State) (user_id : Int) (id : String)
    (body : UpdateBody) :
    (updateBooking rt s user_id id body).1.bookings = s.bookings ∨
    (updateBooking rt s user_id id body).1.bookings
      = modifyFirst (fun b => some b.id == rt.parseInt (.str id) && b.user_id == user_id)
          (applyUpdate rt s.laptops body) s.bookings := by
  cases hfind : s.bookings.find?
      (fun b => some b.id == rt.parseInt (.str id) && b.user_id == user_id) with
  | none => left; unfold updateBooking; simp only; rw [hfind]
  | some booking => right; rw [updateBooking_found rt s user_id id body booking hfind]

theorem addLaptop_bookings (s : State) (role : String) (body : LaptopBody) :
    (addLaptop s role body).1.bookings = s.bookings := by
  unfold addLaptop
  split_ifs <;> rfl

theorem deleteLaptop_bookings (rt : Runtime) (s : State) (role : String) (id : String) :
    (deleteLaptop rt s role id).1.bookings = s.bookings := by
  unfold deleteLaptop
  split_ifs
  · rfl
  · simp only
    split <;> rfl

/-! ## The status of a booking -/

theorem handle_status (rt : Runtime) (s : State) (r : Request) (hr : KeepsStatus r)
    (h : ∀ b ∈ s.bookings, b.status = Val.str "confirmed" ∨ b.status = Val.str "cancelled") :
    (∀ b ∈ (handle rt s r).bookings,
      b.status = Val.str "confirmed" ∨ b.status = Val.str "cancelled") ∧
    (∀ (i : Nat) (b : Booking), s.bookings[i]? = some b → b.status = Val.str "cancelled" →
      ∃ b2, (handle rt s r).bookings[i]? = some b2 ∧ b2.status = Val.str "cancelled") := by
  have hsame : ∀ bs : List Booking, bs = s.bookings →
      (∀ b ∈ bs, b.status = Val.str "confirmed" ∨ b.status = Val.str "cancelled") ∧
      (∀ (i : Nat) (b : Booking), s.bookings[i]? = some b → b.status = Val.str "cancelled" →
        ∃ b2, bs[i]? = some b2 ∧ b2.status = Val.str "cancelled") := by
    intro bs hbs
    subst hbs
    exact ⟨h, fun i b hb hc => ⟨b, hb, hc⟩⟩
  have hmod : ∀ (p : Booking → Bool) (f : Booking → Booking),
      (∀ x, (f x).status = x.status ∨ (f x).status = Val.str "cancelled") →
      (∀ b ∈ modifyFirst p f s.bookings,
        b.status = Val.str "confirmed" ∨ b.status = Val.str "cancelled") ∧
      (∀ (i : Nat) (b : Booking), s.bookings[i]? = some b → b.status = Val.str "cancelled" →
        ∃ b2, (modifyFirst p f s.bookings)[i]? = some b2 ∧
          b2.status = Val.str "cancelled") := by
    intro p f hf
    constructor
    · intro b hb
      rcases mem_modifyFirst p f s.bookings b hb with h1 | ⟨x, hx, rfl⟩
      · exact h b h1
      · rcases hf x with h2 | h2
        · rw [h2]; exact h x hx
        · exact Or.inr h2
    · intro i b hb hc
      rcases getElem_modifyFirst p f s.bookings i with h1 | h1
      · exact ⟨b, by rw [h1, hb], hc⟩
      · refine ⟨f b, by rw [h1, hb]; rfl, ?_⟩
        rcases hf b with h2 | h2
        · rw [h2]; exact hc
        · exact h2
  cases r with
  | create user_id body now =>
    rcases createBooking_bookings rt s user_id body now with h1 | ⟨b, hb, _, _, h1⟩
    · exact hsame _ h1
    · simp only [handle]
      rw [h1]
      constructor
      · intro x hx
        rcases List.mem_append.mp hx with h2 | h2
        · exact h x h2
        · rw [List.mem_singleton.mp h2]; exact Or.inl hb
      · intro i x hx hc
        refine ⟨x, ?_, hc⟩
        have hi : i < s.bookings.length := by
          by_contra hge
          rw [List.getElem?_eq_none (by omega)] at hx
          exact Option.noConfusion hx
        rw [List.getElem?_append_left hi]
        exact hx
  | cancel user_id id now =>
    rcases cancelBooking_bookings rt s user_id id now with h1 | h1
    · exact hsame _ h1
    · simp only [handle]
      rw [h1]
      exact hmod _ _ (fun _ => Or.inr rfl)
  | update user_id id body =>
    rcases updateBooking_bookings rt s user_id id body with h1 | h1
    · exact hsame _ h1
    · simp only [handle]
      rw [h1]
      refine hmod _ _ (fun x => Or.inl ?_)
      have hf := (applyUpdate_fields rt s.laptops body x).2.2.2.2.2.2
      rw [hf]
      have hk : truthy body.status = false := hr
      simp [hk]
  | addLaptop role body => exact hsame _ (addLaptop_bookings s role body)
  | deleteLaptop role id => exact hsame _ (deleteLaptop_bookings rt s role id)

/-- C13, as amended: create stores and returns every booking with status
`confirmed`. From a state whose bookings are all `confirmed` or `cancelled`,
after any sequence of requests in which no update carries a `status`, every
booking is `confirmed` or `cancelled` and a booking that was `cancelled` is
still `cancelled`. -/
theorem status_machine (rt : Runtime) (rs : List Request) (s : State)
    (hrs : ∀ r ∈ rs, KeepsStatus r)
    (h : ∀ b ∈ s.bookings, b.status = Val.str "confirmed" ∨ b.status = Val.str "cancelled") :
    (∀ (user_id : Int) (body : BookingBody) (now : Int) (b : Booking),
      (createBooking rt s user_id body now).2.booking = some b →
      b.status = Val.str "confirmed" ∧ b ∈ (createBooking rt s user_id body now).1.bookings) ∧
    (∀ b ∈ (run rt s rs).bookings,
      b.status = Val.str "confirmed" ∨ b.status = Val.str "cancelled") ∧
    (∀ (i : Nat) (b : Booking), s.bookings[i]? = some b → b.status = Val.str "cancelled" →
      ∃ b2, (run rt s rs).bookings[i]? = some b2 ∧ b2.status = Val.str "cancelled") := by
  refine ⟨?_, ?_⟩
  · intro user_id body now b hb
    cases hfind : s.laptops.find? (fun l => some l.id == rt.Number body.laptop_id) with
    | none =>
      unfold createBooking at hb
      rw [hfind] at hb
      simp [Response.msg] at hb
    | some laptop =>
      cases hav : laptop.available with
      | false =>
        unfold createBooking at hb
        rw [hfind] at hb
        simp [hav, Response.msg] at hb
      | true =>
        rw [createBooking_stored rt s user_id body now laptop hfind hav] at hb ⊢
        simp only [Option.some.injEq] at hb
        subst hb
        exact ⟨rfl, by simp⟩
  · induction rs generalizing s with
    | nil => exact ⟨h, fun i b hb hc => ⟨b, hb, hc⟩⟩
    | cons r rs ih =>
      have hstep := handle_status rt s r (hrs r (List.mem_cons_self _ _)) h
      have hrest := ih (handle rt s r) (fun r2 h2 => hrs r2 (List.mem_cons_of_mem _ h2))
        hstep.1
      refine ⟨hrest.1, ?_⟩
      intro i b hb hc
      obtain ⟨b2, hb2, hc2⟩ := hstep.2 i b hb hc
      exact hrest.2 i b2 hb2 hc2

theorem twice2_bookings :
    twice2.bookings.map (fun b => (b.id, b.status)) = [(1, .str "cancelled")] := by
  simp only [twice2, twice1, cancelBooking, tooLate_eq]
  decide

/-- C13, witness: booking 1 of user 7 is cancelled; then user 8 books laptop 1,
user 7 cancels booking 1 again and moves its end date. -/
theorem status_machine_witness :
    (∀ r ∈ afterCancel, KeepsStatus r) ∧
    (∀ b ∈ twice2.bookings,
      b.status = Val.str "confirmed" ∨ b.status = Val.str "cancelled") ∧
    (∀ (user_id : Int) (body : BookingBody) (now : Int) (b : Booking),
      (createBooking sampleRuntime twice2 user_id body now).2.booking = some b →
      b.status = Val.str "confirmed" ∧
        b ∈ (createBooking sampleRuntime twice2 user_id body now).1.bookings) ∧
    (∀ b ∈ (run sampleRuntime twice2 afterCancel).bookings,
      b.status = Val.str "confirmed" ∨ b.status = Val.str "cancelled") ∧
    (∀ (i : Nat) (b : Booking), twice2.bookings[i]? = some b →
      b.status = Val.str "cancelled" →
      ∃ b2, (run sampleRuntime twice2 afterCancel).bookings[i]? = some b2 ∧
        b2.status = Val.str "cancelled") :=
  have h1 : ∀ r ∈ afterCancel, KeepsStatus r := by
    intro r hr
    simp only [afterCancel, List.mem_cons, List.mem_singleton, List.not_mem_nil,
      or_false] at hr
    rcases hr with rfl | rfl | rfl
    · trivial
    · trivial
    · rfl
  have h2 : ∀ b ∈ twice2.bookings,
      b.status = Val.str "confirmed" ∨ b.status = Val.str "cancelled" := by
    simp only [twice2, twice1, cancelBooking, tooLate_eq]
    decide
  ⟨h1, h2, status_machine sampleRuntime afterCancel twice2 h1 h2⟩

/-- C13, counterexample: booking 1 was created by user 7 and cancelled; an
update of user 7 with status `confirmed` sets it back to `confirmed`, and an
update with status `pending` gives it a status that is neither. -/
theorem update_reconfirms_cancelled :
    twice2.bookings.map (fun b => (b.id, b.status)) = [(1, .str "cancelled")] ∧
    (run sampleRuntime twice2 reconfirm).bookings.map (fun b => (b.id, b.status))
      = [(1, .str "confirmed")] ∧
    (run sampleRuntime twice2 relabel).bookings.map (fun b => (b.id, b.status))
      = [(1, .str "pending")] := by
  simp only [twice2, twice1, cancelBooking, tooLate_eq]
  decide

/-! ## Update and list -/

/-- C17: an update-booking request, whether it finds a booking or not and
whatever its body sets, returns the laptops collection (and the users and the
OTP store) as it was; the list of own bookings returns the state as it was. Of
the booking handlers only create and cancel assign `available`. -/
theorem updateBooking_frame (rt : Runtime) (s : State) (user_id : Int) (id : String)
    (body : UpdateBody) :
    (updateBooking rt s user_id id body).1.laptops = s.laptops ∧
    (updateBooking rt s user_id id body).1.laptops.map (fun l => l.available)
      = s.laptops.map (fun l => l.available) ∧
    (updateBooking rt s user_id id body).1.users = s.users ∧
    (updateBooking rt s user_id id body).1.otpStore = s.otpStore ∧
    (getBookings s user_id).1 = s := by
  have h : (updateBooking rt s user_id id body).1.laptops = s.laptops ∧
      (updateBooking rt s user_id id body).1.users = s.users ∧
      (updateBooking rt s user_id id body).1.otpStore = s.otpStore := by
    unfold updateBooking
    simp only
    split
    · exact ⟨rfl, rfl, rfl⟩
    · exact ⟨rfl, rfl, rfl⟩
  exact ⟨h.1, by rw [h.1], h.2.1, h.2.2, rfl⟩

/-- C18: the list of own bookings holds exactly the stored bookings whose
`user_id` is the caller's, whatever their status, each as often as it is
stored and in the stored order, and the handler returns the state as it
was. -/
theorem myBookings_spec (s : State) (user_id : Int) :
    (∀ b, b ∈ myBookings s user_id ↔ b ∈ s.bookings ∧ b.user_id = user_id) ∧
    (∀ b ∈ myBookings s user_id, b.user_id = user_id) ∧
    (myBookings s user_id).Sublist s.bookings ∧
    (∀ b, b.user_id = user_id → (myBookings s user_id).count b = s.bookings.count b) ∧
    getBookings s user_id = (s, myBookings s user_id) := by
  refine ⟨?_, ?_, ?_, ?_, rfl⟩
  · intro b
    simp [myBookings, List.mem_filter]
  · intro b hb
    simpa using (List.mem_filter.mp hb).2
  · exact List.filter_sublist _
  · intro b hb
    unfold myBookings
    rw [List.count_filter]
    simp [hb]

/-! ## Booking ids -/

theorem sequentialIds_append (bs : List Booking) (b : Booking)
    (hb : b.id = (bs.length : Int) + 1) (h : sequentialIds bs) :
    sequentialIds (bs ++ [b]) := by
  unfold sequentialIds at h ⊢
  rw [List.map_append, h, List.length_append, List.length_singleton, List.range_succ,
    List.map_append]
  simp [hb]

theorem sequentialIds_modifyFirst (p : Booking → Bool) (f : Booking → Booking)
    (hf : ∀ x, (f x).id = x.id) (bs : List Booking) (h : sequentialIds bs) :
    sequentialIds (modifyFirst p f bs) := by
  unfold sequentialIds at h ⊢
  rw [map_modifyFirst p f (fun b => b.id) hf, length_modifyFirst, h]

theorem idsOneToN_append (bs : List Booking) (b : Booking)
    (hb : b.id = (bs.length : Int) + 1) (h : idsOneToN bs) :
    idsOneToN (bs ++ [b]) := by
  unfold idsOneToN at h ⊢
  rw [List.map_append, List.length_append, List.length_singleton, List.range_succ,
    List.map_append]
  simp only [List.map_cons, List.map_nil, hb]
  exact List.Perm.append_right _ h

theorem idsOneToN_modifyFirst (p : Booking → Bool) (f : Booking → Booking)
    (hf : ∀ x, (f x).id = x.id) (bs : List Booking) (h : idsOneToN bs) :
    idsOneToN (modifyFirst p f bs) := by
  unfold idsOneToN at h ⊢
  rw [map_modifyFirst p f (fun b => b.id) hf, length_modifyFirst]
  exact h

theorem idsOneToN_nodup (bs : List Booking) (h : idsOneToN bs) :
    (bs.map (fun b => b.id)).Nodup := by
  rw [List.Perm.nodup_iff h]
  apply List.Nodup.map _ (List.nodup_range _)
  intro a b hab
  simp only at hab
  omega

theorem handle_bookings_induction (P : List Booking → Prop)
    (happ : ∀ (bs : List Booking) (b : Booking), b.id = (bs.length : Int) + 1 →
      P bs → P (bs ++ [b]))
    (hmod : ∀ (p : Booking → Bool) (f : Booking → Booking) (bs : List Booking),
      (∀ x, (f x).id = x.id) → P bs → P (modifyFirst p f bs))
    (rt : Runtime) (s : State) (r : Request) (h : P s.bookings) :
    P (handle rt s r).bookings := by
  cases r with
  | create user_id body now =>
    rcases createBooking_bookings rt s user_id body now with h1 | ⟨b, _, hb, _, h1⟩
    · simp only [handle]; rw [h1]; exact h
    · simp only [handle]; rw [h1]; exact happ _ _ hb h
  | cancel user_id id now =>
    rcases cancelBooking_bookings rt s user_id id now with h1 | h1
    · simp only [handle]; rw [h1]; exact h
    · simp only [handle]; rw [h1]
      exact hmod _ (fun b => { b with status := .str "cancelled" }) _ (fun _ => rfl) h
  | update user_id id body =>
    rcases updateBooking_bookings rt s user_id id body with h1 | h1
    · simp only [handle]; rw [h1]; exact h
    · simp only [handle]; rw [h1]
      exact hmod _ _ _ (fun x => (applyUpdate_fields rt s.laptops body x).1) h
  | addLaptop role body =>
    simp only [handle]; rw [addLaptop_bookings]; exact h
  | deleteLaptop role id =>
    simp only [handle]; rw [deleteLaptop_bookings]; exact h

theorem run_bookings_induction (P : List Booking → Prop)
    (happ : ∀ (bs : List Booking) (b : Booking), b.id = (bs.length : Int) + 1 →
      P bs → P (bs ++ [b]))
    (hmod : ∀ (p : Booking → Bool) (f : Booking → Booking) (bs : List Booking),
      (∀ x, (f x).id = x.id) → P bs → P (modifyFirst p f bs))
    (rt : Runtime) (rs : List Request) (s : State) (h : P s.bookings) :
    P (run rt s rs).bookings := by
  induction rs generalizing s with
  | nil => exact h
  | cons r rs ih => exact ih (handle rt s r) (handle_bookings_induction P happ hmod rt s r h)

theorem lookup_at_most_one (bs : List Booking) (hnd : (bs.map (fun b => b.id)).Nodup)
    (k : Option Int) (user_id : Int) :
    bs.countP (fun b => some b.id == k && b.user_id == user_id) ≤ 1 := by
  cases k with
  | none => simp
  | some n =>
    have h1 : bs.countP (fun b => some b.id == some n && b.user_id == user_id)
        ≤ bs.countP (fun b => b.id == n) := by
      apply List.countP_mono_left
      intro b _ hb
      simp only [Bool.and_eq_true, beq_iff_eq, Option.some.injEq] at hb
      simp [hb.1]
    have h2 : bs.countP (fun b => b.id == n) = (bs.map (fun b => b.id)).count n := by
      rw [List.count, List.countP_map]
      rfl
    have h3 := List.nodup_iff_count_le_one.mp hnd n
    omega

/-- C19: from a bookings collection whose ids are the numbers 1..n, after any
sequence of requests the ids are the numbers 1..m, hence pairwise distinct, and
the lookup of cancel and update by id and owner matches at most one booking;
when the ids start in the order 1, 2, ..., n, as create builds them, they stay
in the order 1, 2, ..., m. -/
theorem booking_ids_unique (rt : Runtime) (rs : List Request) (s : State)
    (h : idsOneToN s.bookings) :
    idsOneToN (run rt s rs).bookings ∧
    ((run rt s rs).bookings.map (fun b => b.id)).Nodup ∧
    s.bookings.length ≤ (run rt s rs).bookings.length ∧
    (∀ (k : Option Int) (user_id : Int),
      (run rt s rs).bookings.countP
        (fun b => some b.id == k && b.user_id == user_id) ≤ 1) ∧
    (sequentialIds s.bookings → sequentialIds (run rt s rs).bookings) := by
  have hperm := run_bookings_induction idsOneToN idsOneToN_append
    (fun p f bs hf hP => idsOneToN_modifyFirst p f hf bs hP) rt rs s h
  have hlen := run_bookings_induction (fun bs => s.bookings.length ≤ bs.length)
    (fun bs b _ hP => by
      show s.bookings.length ≤ (bs ++ [b]).length
      have hP2 : s.bookings.length ≤ bs.length := hP
      rw [List.length_append]
      omega)
    (fun p f bs _ hP => by
      show s.bookings.length ≤ (modifyFirst p f bs).length
      rw [length_modifyFirst]
      exact hP) rt rs s (le_refl _)
  have hnd := idsOneToN_nodup _ hperm
  refine ⟨hperm, hnd, hlen, fun k user_id => lookup_at_most_one _ hnd k user_id, ?_⟩
  intro hseq
  exact run_bookings_induction sequentialIds sequentialIds_append
    (fun p f bs hf hP => sequentialIds_modifyFirst p f hf bs hP) rt rs s hseq

/-- C19, witness: the run `afterCancel` from `twice2`, whose one booking has
the id 1. -/
theorem booking_ids_unique_witness :
    idsOneToN twice2.bookings ∧
    idsOneToN (run sampleRuntime twice2 afterCancel).bookings ∧
    ((run sampleRuntime twice2 afterCancel).bookings.map (fun b => b.id)).Nodup ∧
    twice2.bookings.length ≤ (run sampleRuntime twice2 afterCancel).bookings.length ∧
    (∀ (k : Option Int) (user_id : Int),
      (run sampleRuntime twice2 afterCancel).bookings.countP
        (fun b => some b.id == k && b.user_id == user_id) ≤ 1) ∧
    (sequentialIds twice2.bookings →
      sequentialIds (run sampleRuntime twice2 afterCancel).bookings) :=
  have h : idsOneToN twice2.bookings := by
    have hid : twice2.bookings.map (fun b => b.id) = [1] := by
      simp only [twice2, twice1, cancelBooking, tooLate_eq]
      decide
    have hlen : twice2.bookings.length = 1 := by
      simp only [twice2, twice1, cancelBooking, tooLate_eq]
      decide
    unfold idsOneToN
    rw [hid, hlen]
    decide
  ⟨h, booking_ids_unique sampleRuntime afterCancel twice2 h⟩

/-! ## Users and laptops -/

theorem register_taken (rt : Runtime) (s : State) (body : RegisterBody) (now : Int)
    (salt : Nat) (h : ∃ u ∈ s.users, u.email = body.email) :
    register rt s body now salt = (s, Response.msg 400 "Email already registered") := by
  unfold register
  cases hfind : s.users.find? (fun u => u.email == body.email) with
  | some u => rfl
  | none =>
    obtain ⟨u, hu, he⟩ := h
    have := List.find?_eq_none.mp hfind u hu
    simp [he] at this

theorem register_fresh (rt : Runtime) (s : State) (body : RegisterBody) (now : Int)
    (salt : Nat) (h : ∀ u ∈ s.users, u.email ≠ body.email) :
    register rt s body now salt
      = ({ s with users := s.users ++ [⟨(s.users.length : Int) + 1, body.name, body.email,
            rt.bcryptHash body.password salt, "customer", now⟩] },
          Response.msg 201 "User registered successfully") := by
  unfold register
  have hfind : s.users.find? (fun u => u.email == body.email) = none := by
    rw [List.find?_eq_none]
    intro u hu
    simpa using h u hu
  rw [hfind]

/-- C15: register with an email that a stored user has answers 400
"Email already registered" and changes nothing; with an email no stored user
has, it appends one user with that email, the hash of the password and the role
`customer`, whatever the body carries, and changes nothing else; a further
registration with the same email is then refused. -/
theorem register_spec (rt : Runtime) (s : State) (body : RegisterBody) (now : Int)
    (salt : Nat) :
    ((∃ u ∈ s.users, u.email = body.email) →
      register rt s body now salt = (s, Response.msg 400 "Email already registered")) ∧
    ((∀ u ∈ s.users, u.email ≠ body.email) →
      ∃ u : User, u.email = body.email ∧ u.role = "customer" ∧ u.name = body.name ∧
        u.password = rt.bcryptHash body.password salt ∧
        u.id = (s.users.length : Int) + 1 ∧
        (register rt s body now salt).2 = Response.msg 201 "User registered successfully" ∧
        (register rt s body now salt).1.users = s.users ++ [u] ∧
        (register rt s body now salt).1.laptops = s.laptops ∧
        (register rt s body now salt).1.bookings = s.bookings ∧
        (register rt s body now salt).1.otpStore = s.otpStore ∧
        ∀ (body2 : RegisterBody) (now2 : Int) (salt2 : Nat), body2.email = body.email →
          register rt (register rt s body now salt).1 body2 now2 salt2
            = ((register rt s body now salt).1,
                Response.msg 400 "Email already registered")) := by
  refine ⟨register_taken rt s body now salt, ?_⟩
  intro h
  rw [register_fresh rt s body now salt h]
  refine ⟨_, rfl, rfl, rfl, rfl, rfl, rfl, rfl, rfl, rfl, rfl, ?_⟩
  intro body2 now2 salt2 he
  apply register_taken
  exact ⟨_, List.mem_append_right _ (List.mem_singleton_self _), he.symm⟩

/-- C15, witness: Carl registers at `twoUsers` (his body also sends the role
`admin`), a second registration with his email is refused, and so is one with
Ann's email. -/
theorem register_spec_witness :
    register sampleRuntime twoUsers ⟨"Eve", "ann@example.com", "pw", .undefined⟩ 5 0
      = (twoUsers, Response.msg 400 "Email already registered") ∧
    ∃ u : User, u.email = carl.email ∧ u.role = "customer" ∧ u.name = carl.name ∧
      u.password = sampleRuntime.bcryptHash carl.password 0 ∧
      u.id = (twoUsers.users.length : Int) + 1 ∧
      (register sampleRuntime twoUsers carl 5 0).2
        = Response.msg 201 "User registered successfully" ∧
      (register sampleRuntime twoUsers carl 5 0).1.users = twoUsers.users ++ [u] ∧
      (register sampleRuntime twoUsers carl 5 0).1.laptops = twoUsers.laptops ∧
      (register sampleRuntime twoUsers carl 5 0).1.bookings = twoUsers.bookings ∧
      (register sampleRuntime twoUsers carl 5 0).1.otpStore = twoUsers.otpStore ∧
      ∀ (body2 : RegisterBody) (now2 : Int) (salt2 : Nat), body2.email = carl.email →
        register sampleRuntime (register sampleRuntime twoUsers carl 5 0).1 body2 now2 salt2
          = ((register sampleRuntime twoUsers carl 5 0).1,
              Response.msg 400 "Email already registered") :=
  ⟨(register_spec sampleRuntime twoUsers ⟨"Eve", "ann@example.com", "pw", .undefined⟩ 5 0).1
      (by decide),
    (register_spec sampleRuntime twoUsers carl 5 0).2 (by decide)⟩

/-- C16, at the failing input: Ann and Bob have different emails; an admin
update of user 2 with Ann's email answers 200 and leaves two users with the
email ann@example.com, while register refuses that email. -/
theorem update_user_duplicates_email :
    (twoUsers.users.map (fun u => u.email)).Nodup ∧
    (register sampleRuntime twoUsers ⟨"Eve", "ann@example.com", "pw", .undefined⟩ 5 0).2
      = Response.msg 400 "Email already registered" ∧
    (updateUser sampleRuntime twoUsers "admin" "2" takeEmail 0).2.status = 200 ∧
    (updateUser sampleRuntime twoUsers "admin" "2" takeEmail 0).1.users.map
        (fun u => (u.id, u.email))
      = [(1, "ann@example.com"), (2, "ann@example.com")] ∧
    ¬ ((updateUser sampleRuntime twoUsers "admin" "2" takeEmail 0).1.users.map
        (fun u => u.email)).Nodup := by
  decide

/-- C20, at the failing input: the laptops have the ids 1 and 2; an admin
deletes laptop 1 and adds a laptop, which gets the id `laptops.length + 1` = 2:
two laptops have the id 2. -/
theorem add_after_delete_repeats_id :
    (twoLaptops.laptops.map (fun l => l.id)).Nodup ∧
    (deleteLaptop sampleRuntime twoLaptops "admin" "1").2.status = 200 ∧
    (run sampleRuntime twoLaptops deleteThenAdd).laptops.map (fun l => (l.id, l.brand))
      = [(2, .str "HP"), (2, .str "Acer")] ∧
    ¬ ((run sampleRuntime twoLaptops deleteThenAdd).laptops.map (fun l => l.id)).Nodup := by
  decide

end LaptopBooking
